import Mathlib

/-!
Verification of the two automation scripts of `shotgrid-flame-tools`
(`create_shot_masters.py` and `create_playlist_for_review.py`) against their
natural-language specification.

The scripts are shallowly embedded: pure string manipulation is translated
directly, calls into the host editing application (Flame) and into the
production-tracking service (ShotGrid) are modelled as environment oracles,
and the observable behaviour of each driver function is captured as an event
trace or an explicit result state.  Python operations that can raise
(`list[i]`, `dict[k]`) are modelled with `Option`.
-/

set_option autoImplicit false

/-! ### Python string primitives over `List Char` -/

/-- Python's substring test `needle in hay`. -/
def containsSub (needle : List Char) : List Char → Bool
  | [] => needle.isPrefixOf []
  | c :: rest => needle.isPrefixOf (c :: rest) || containsSub needle rest

/-- Recursive worker for Python's `str.replace`: replaces the leftmost
occurrence of `pat` and continues after the inserted replacement.  The
recursion is structural on a character budget (`pyReplace` passes the length
of the list, enough because every step consumes at least one character);
the empty-pattern case is handled by `pyReplace`. -/
def pyReplaceAux (pat rep : List Char) : Nat → List Char → List Char
  | _, [] => []
  | 0, s => s
  | fuel + 1, c :: rest =>
    if pat.isPrefixOf (c :: rest) ∧ pat ≠ [] then
      rep ++ pyReplaceAux pat rep fuel ((c :: rest).drop pat.length)
    else
      c :: pyReplaceAux pat rep fuel rest

/-- Python `s.replace(pat, rep)`: every non-overlapping occurrence, scanned
left to right.  With an empty pattern Python inserts `rep` before every
character and at the end. -/
def pyReplace (s pat rep : List Char) : List Char :=
  if pat = [] then rep ++ (s.map (fun c => c :: rep)).flatten
  else pyReplaceAux pat rep s.length s

/-- Python `sep.join(pieces)` for a one-character separator. -/
def joinSep (sep : Char) : List (List Char) → List Char
  | [] => []
  | [x] => x
  | x :: y :: rest => x ++ sep :: joinSep sep (y :: rest)

/-- Tokenize on a single separator character; the left inverse of `joinSep`
on separator-free, and of nonempty lists of, pieces.  Used to state what
"the token `194` appears in the output" means. -/
def splitSep (sep : Char) : List Char → List (List Char)
  | [] => [[]]
  | c :: rest =>
    match splitSep sep rest with
    | [] => [[]]
    | t :: ts => if c = sep then [] :: t :: ts else (c :: t) :: ts

/-- Evaluate a list of decimal digit characters back to the number they
print; used to invert `Nat.repr`. -/
def decVal (l : List Char) : Nat :=
  l.foldl (fun acc c => 10 * acc + (c.toNat - 48)) 0

/-! ### `ascii_convert` (create_shot_masters.py, lines 320-341)

```python
text_to_convert = text_to_convert.replace('“', '"').replace('”', '"')
ascii_list = []
for char in text_to_convert:
    ascii_num = ord(char)
    if ascii_num != 194:
        ascii_list.append(ascii_num)
ascii_code = ' '.join(str(a) for a in ascii_list)
```
-/

/-- `ascii_convert` from `create_shot_masters.py`: replace the two curly
double-quote characters by the straight quote, collect the code point of
every remaining character other than 194, and join their decimal
representations with single spaces. -/
def ascii_convert (text_to_convert : List Char) : List Char :=
  let replaced := pyReplace (pyReplace text_to_convert ['“'] ['"']) ['”'] ['"']
  let ascii_list := (replaced.filter (fun c => c.toNat ≠ 194)).map Char.toNat
  joinSep ' ' (ascii_list.map (fun a => (Nat.repr a).data))

/-! ### Slate template substitution (create_shot_masters.py)

`generate_slate` (lines 265-289) loads a `.ttg` template as a list of lines,
snapshots the lines starting with `'Text'` (together with their indices) once,
and then, for every `(token, value)` pair of the slate-info dict, rewrites the
template through `replace_token` (lines 343-367) and `update_setup`
(lines 389-402).  Lines are `List Char` and keep their trailing newline.
The dict `new_lines` built by `replace_token` is modelled as an association
list in insertion order; applying it entry by entry (`update_setup`) yields
the same final list as Python's dict, because a later assignment to the same
key overwrites the earlier one in both.  List indices are `Int` because
`new_lines[index - 1]` with `index = 0` produces the Python index `-1`, which
assigns the *last* element. -/

/-- Python list item assignment `l[i] = v`, including negative indices;
`none` models `IndexError`. -/
def pySet {α : Type} (l : List α) (i : Int) (v : α) : Option (List α) :=
  let j := if i < 0 then i + l.length else i
  if 0 ≤ j ∧ j < l.length then some (l.set j.toNat v) else none

/-- `update_setup` from `create_shot_masters.py`: apply every `index ↦ line`
assignment of `new_lines` to the setup list. -/
def update_setup (setup : List (List Char)) (new_lines : List (Int × List Char)) :
    Option (List (List Char)) :=
  new_lines.foldlM (fun s p => pySet s p.1 p.2) setup

/-- The f-string `f'TextLength {char_count}\n'`. -/
def textLengthLine (char_count : Nat) : List Char :=
  "TextLength ".data ++ (Nat.repr char_count).data ++ ['\n']

/-- `replace_token` from `create_shot_masters.py`.  A falsy (empty) value is
first replaced by a single space.  For every snapshotted `'Text'` line that
contains the code-point pattern of the token, the dict receives the rewritten
line at `index` and a fresh `TextLength` line at `index - 1`. -/
def replace_token (token value : List Char) (text_lines : List (Int × List Char)) :
    List (Int × List Char) :=
  let value := if value = [] then [' '] else value
  let char_count := value.length
  let pattern := ascii_convert token
  let pattern_replacement := ascii_convert value
  text_lines.foldl
    (fun new_lines p =>
      if containsSub pattern p.2 then
        new_lines ++ [(p.1, pyReplace p.2 pattern pattern_replacement),
                      (p.1 - 1, textLengthLine char_count)]
      else new_lines)
    []

/-- The dict comprehension in `generate_slate`:
`{index: line for index, line in enumerate(slate_setup) if line.startswith('Text')}`. -/
def text_lines_of (slate_setup : List (List Char)) : List (Int × List Char) :=
  (slate_setup.enum.filter (fun p => "Text".data.isPrefixOf p.2)).map
    (fun p => ((p.1 : Int), p.2))

/-- The template-rewriting core of `generate_slate`: snapshot the `'Text'`
lines of the template once, then fold every `(token, value)` pair of the
slate-info dict through `replace_token` / `update_setup`. -/
def generate_slate_setup (slate_setup : List (List Char))
    (slate_info : List (List Char × List Char)) : Option (List (List Char)) :=
  let text_lines := text_lines_of slate_setup
  slate_info.foldlM
    (fun setup tv => update_setup setup (replace_token tv.1 tv.2 text_lines))
    slate_setup

/-! ### On-disk temp folder (create_shot_masters.py, lines 369-408)

`write_slate_ttg` creates `TEMP_FOLDER` when missing and writes one `.ttg`
file into it; `delete_temp_folder` removes the tree when it exists.  The disk
is abstracted to the set of existing paths. -/

/-- Abstract on-disk state: which absolute paths exist. -/
def DiskFS : Type := String → Bool

/-- `os.path.dirname(__file__)`: an opaque directory name. -/
def SCRIPT_PATH : String := "/opt/shotgrid-flame-tools"

/-- `TEMP_FOLDER = os.path.join(SCRIPT_PATH, 'temp')`. -/
def TEMP_FOLDER : String := SCRIPT_PATH ++ "/temp"

/-- `p` is `dir` itself or lies underneath it. -/
def pathIsUnder (dir p : String) : Bool :=
  p = dir || (dir ++ "/").isPrefixOf p

/-- `shutil.rmtree dir`: the directory and everything under it disappear. -/
def rmtree (dir : String) (fs : DiskFS) : DiskFS :=
  fun p => if pathIsUnder dir p then false else fs p

/-- `delete_temp_folder` from `create_shot_masters.py`: remove `TEMP_FOLDER`
when it exists, do nothing otherwise. -/
def delete_temp_folder (fs : DiskFS) : DiskFS :=
  if fs TEMP_FOLDER then rmtree TEMP_FOLDER fs else fs

/-- The disk effect of `write_slate_ttg`: `os.makedirs(TEMP_FOLDER)` when it
does not exist, then the `.ttg` file is written inside it. -/
def write_slate_ttg_fs (file_name : String) (fs : DiskFS) : DiskFS :=
  fun p =>
    if p = TEMP_FOLDER || p = TEMP_FOLDER ++ "/" ++ file_name ++ ".ttg" then true
    else fs p

/-! ### The two menu-scope hooks

`scope_reel` (create_playlist_for_review.py, lines 175-183) and
`scope_sequence` (create_shot_masters.py, lines 410-418) receive the tuple of
selected media-panel entries.  `selection[0]` on an empty tuple raises
`IndexError`, modelled by `none`. -/

/-- A media-panel entry as far as the two hooks can distinguish them. -/
inductive PanelEntry where
  | reel (name : String)
  | sequenceEntry (name : String)
  | clipEntry (name : String)
deriving DecidableEq, Repr

/-- `isinstance(e, flame.PyReel)`. -/
def isPyReel : PanelEntry → Bool
  | .reel _ => true
  | _ => false

/-- `isinstance(e, flame.PySequence)`. -/
def isPySequence : PanelEntry → Bool
  | .sequenceEntry _ => true
  | _ => false

/-- `e.name.get_value()`. -/
def entryName : PanelEntry → String
  | .reel n => n
  | .sequenceEntry n => n
  | .clipEntry n => n

/-- `scope_reel` from `create_playlist_for_review.py`: rejects selections of
length `> 1`, then indexes `selection[0]` unguarded. -/
def scope_reel (selection : List PanelEntry) : Option Bool :=
  if selection.length > 1 then some false
  else
    match selection.get? 0 with
    | none => none
    | some e =>
      if !isPyReel e then some false
      else if containsSub "comp_submissions".data (entryName e).data then some true
      else some false

/-- `scope_sequence` from `create_shot_masters.py`: rejects every selection
whose length is not exactly `1` before indexing `selection[0]`. -/
def scope_sequence (selection : List PanelEntry) : Option Bool :=
  if selection.length ≠ 1 then some false
  else
    match selection.get? 0 with
    | none => none
    | some e =>
      if !isPySequence e then some false
      else if !(entryName e).endsWith "comp_submissions" then some false
      else some true

/-! ### create_playlist_for_review.py

The driver `create_client_delivery` is modelled as a trace of the externally
visible ShotGrid/renderer operations plus a completion flag (`false` when the
run was cancelled or aborted by an uncaught exception).  The ShotGrid side is
an oracle environment: entity lookups, the ids assigned by `create`, and
which upload attempts raise. -/

/-- `os.path.join a b` for a relative second component. -/
def pathJoin (a b : String) : String := a ++ "/" ++ b

/-- The fields of one clip of the reel that the script reads. -/
structure ClipInfo where
  name : String
  /-- `clip.versions[0].tracks[0].segments[0].shot_name.get_value()` -/
  shotName : String
  /-- `clip.duration.frame` -/
  durationFrame : Int
  /-- `clip.ratio` (kept symbolic) -/
  ratio : String
  /-- `clip.frame_rate`, e.g. `"23.976 fps"` -/
  frameRate : String
deriving DecidableEq, Repr

/-- The selected `'_comp_submissions'` reel. -/
structure ReelInfo where
  name : String
  clips : List ClipInfo
deriving DecidableEq, Repr

/-- The `version_data` dict built for one clip (lines 87-100).  The aspect
ratio and frame rate are carried as the strings fed to the API. -/
structure VersionData where
  code : String
  entityShotId : Nat
  taskId : Nat
  projectId : Nat
  description : String
  user : String
  statusList : String
  firstFrame : Int
  lastFrame : Int
  frameCount : Int
  movieAspectRatio : String
  frameRateToken : String
  movieHasSlate : Bool
  pathToMovie : String
deriving DecidableEq, Repr

/-- A Version record as returned by `shotgrid.create('Version', …)`. -/
structure CreatedVersion where
  id : Nat
  data : VersionData
deriving DecidableEq, Repr

/-- The ShotGrid-side oracles.  `create_client_delivery` only proceeds past
its lookups when they succeed, so the lookups are total here. -/
structure SGEnv where
  /-- id of the Shot found by code (within the project) -/
  findShotId : String → Nat
  /-- id of the `'Comp'` Task of a shot -/
  findTaskId : Nat → Nat
  /-- description of the internal Version found by code -/
  findVersionDescription : String → String
  /-- `sg_authorization.resolve_entity()` -/
  userEntity : String
  /-- id assigned by `shotgrid.create('Version', …)` to the k-th created version -/
  assignId : Nat → Nat
  /-- whether `shotgrid.upload` raises, per version id and attempt number (1 or 2) -/
  uploadRaises : Nat → Nat → Bool

/-- `'23.976 fps'.split()[0]`, the string Python feeds to `float()`. -/
def frameRateFirstToken (s : String) : String :=
  String.mk ((splitSep ' ' s.data).headD [])

/-- The `version_data` dict for one clip (create_playlist_for_review.py,
lines 74-100). -/
def version_data_for (project_id : Nat) (path reel_name : String) (env : SGEnv)
    (clip : ClipInfo) : VersionData :=
  let shotId := env.findShotId clip.shotName
  { code := clip.name
    entityShotId := shotId
    taskId := env.findTaskId shotId
    projectId := project_id
    description := env.findVersionDescription clip.name
    user := env.userEntity
    statusList := "rev"
    firstFrame := 1001
    lastFrame := clip.durationFrame + 999
    frameCount := clip.durationFrame - 1
    movieAspectRatio := clip.ratio
    frameRateToken := frameRateFirstToken clip.frameRate
    movieHasSlate := true
    pathToMovie := pathJoin (pathJoin (pathJoin path reel_name) "h264") (clip.name ++ ".mov") }

/-- `create_versions` (lines 58-108): one `shotgrid.create('Version', …)` per
clip of the reel, in reel order.  `create` returns the (truthy) new record,
so the `if version:` guard always appends. -/
def create_versions (reel : ReelInfo) (project_id : Nat) (path : String)
    (env : SGEnv) : List CreatedVersion :=
  reel.clips.enum.map
    (fun p => { id := env.assignId p.1
                data := version_data_for project_id path reel.name env p.2 })

/-- One externally visible operation of `create_client_delivery`. -/
inductive DeliveryEvent where
  | exportRender (preset path : String)
  | createVersion (id : Nat) (data : VersionData)
  | uploadAttempt (versionId : Nat)
  | sleepSeconds (seconds : Nat)
  | createPlaylist (code : String) (versionIds : List Nat) (projectId : Nat)
deriving DecidableEq, Repr

/-- The upload loop of `send_h264s_to_shotgrid` (lines 129-137): one attempt
per version; only when it raises, sleep one second and attempt once more
outside any handler.  The `Bool` is `false` when the second attempt raised,
aborting the loop. -/
def upload_loop (env : SGEnv) : List CreatedVersion → List DeliveryEvent × Bool
  | [] => ([], true)
  | v :: rest =>
    if env.uploadRaises v.id 1 then
      if env.uploadRaises v.id 2 then
        ([.uploadAttempt v.id, .sleepSeconds 1, .uploadAttempt v.id], false)
      else
        let r := upload_loop env rest
        ([.uploadAttempt v.id, .sleepSeconds 1, .uploadAttempt v.id] ++ r.1, r.2)
    else
      let r := upload_loop env rest
      (.uploadAttempt v.id :: r.1, r.2)

/-- `send_h264s_to_shotgrid` (lines 110-138): render the H.264s, then run the
upload loop. -/
def send_h264s_to_shotgrid (versions : List CreatedVersion) (path : String)
    (env : SGEnv) : List DeliveryEvent × Bool :=
  let r := upload_loop env versions
  (DeliveryEvent.exportRender "Shotgrid Version Creation.xml" path :: r.1, r.2)

/-- `create_playlist` (lines 155-173): one Playlist whose `code` is the given
name and whose `versions` field lists the supplied version ids in order. -/
def create_playlist (name : String) (versions : List CreatedVersion)
    (project_id : Nat) : DeliveryEvent :=
  .createPlaylist name (versions.map (fun v => v.id)) project_id

/-- `create_client_delivery` (lines 21-56).  `export_path` is the browser
selection (`""` when the user cancelled), `engine_project` is `none` when the
project is not linked to ShotGrid; both cases return before any external
operation.  An upload whose retry raises aborts the run before the playlist
is created. -/
def create_client_delivery (reel : ReelInfo) (export_path : String)
    (engine_project : Option Nat) (env : SGEnv) : List DeliveryEvent × Bool :=
  if export_path = "" then ([], false)
  else
    match engine_project with
    | none => ([], false)
    | some project_id =>
      let ev_export := [DeliveryEvent.exportRender "Editorial DNx36.xml" export_path]
      let versions := create_versions reel project_id export_path env
      let ev_versions := versions.map (fun v => DeliveryEvent.createVersion v.id v.data)
      let upl := send_h264s_to_shotgrid versions export_path env
      if upl.2 then
        (ev_export ++ ev_versions ++ upl.1 ++ [create_playlist reel.name versions project_id],
         true)
      else
        (ev_export ++ ev_versions ++ upl.1, false)

/-! ### create_shot_masters.py: timeline model

The editorial side is modelled explicitly: matched clips, master sequences
with tracks of placed segments, and timeline effects.  Flame calls that
produce media (`match`, `import_clips`) are environment oracles. -/

/-- A segment of the selected editorial sequence, as read by the script. -/
structure SegmentInfo where
  /-- `segment.name.get_value()` (the version name) -/
  name : String
  /-- `segment.shot_name.get_value()` -/
  shotName : String
  /-- `segment.type` -/
  segType : String
  /-- `shot.head` (length of the head handles) -/
  head : Int
  /-- `shot.source_duration.frame` -/
  sourceDuration : Int
  /-- resolution of the segment's source media -/
  sourceWidth : Nat
  sourceHeight : Nat
deriving DecidableEq, Repr

/-- One track of the editorial sequence. -/
structure TrackInfo where
  segments : List SegmentInfo
deriving DecidableEq, Repr

/-- One entry of `sequence.versions`. -/
structure SeqVersionInfo where
  tracks : List TrackInfo
deriving DecidableEq, Repr

/-- The selected `PySequence`. -/
structure SequenceInfo where
  name : String
  versions : List SeqVersionInfo
deriving DecidableEq, Repr

/-- `collect_sequence_segments` (lines 190-206): every segment of every track
of every version, keeping only those of type `'Video Segment'`. -/
def collect_sequence_segments (sequence : SequenceInfo) : List SegmentInfo :=
  let segments :=
    sequence.versions.flatMap (fun v => v.tracks.flatMap (fun t => t.segments))
  segments.filter (fun s => s.segType = "Video Segment")

/-- A `PyClip` as the script observes it. -/
structure ClipM where
  name : String
  width : Nat
  height : Nat
  bitDepth : Nat
  scanMode : String
  frameRate : String
  /-- `clip.start_time.get_value()` (source timecode, in frames) -/
  startTime : Int
  colourSpace : String
  inMark : Option Int := none
  outMark : Option Int := none
deriving DecidableEq, Repr

/-- A timeline effect on a segment. `setupContent` carries the lines of a
setup file generated by this script (unknown for external setup files). -/
structure EffectM where
  effectType : String
  bypass : Option Bool := none
  setupPath : Option String := none
  setupContent : Option (List (List Char)) := none
deriving DecidableEq, Repr

/-- A segment placed on a master-sequence track. -/
structure TLSeg where
  clip : ClipM
  recordTime : Int
  effects : List EffectM
deriving DecidableEq, Repr

/-- One video track of a master sequence. -/
structure TrackM where
  segs : List TLSeg
deriving DecidableEq, Repr

/-- A master `PySequence` under construction. -/
structure SeqM where
  name : String
  width : Nat
  height : Nat
  bitDepth : Nat
  scanMode : String
  frameRate : String
  startAt : Int
  audioTracks : Nat
  colourSpace : String
  tracks : List TrackM
deriving DecidableEq, Repr

/-- The Flame/ShotGrid oracles used by `build_shot_masters_from_sequence`. -/
structure BuildEnv where
  /-- `shot.match(reel, include_timeline_fx = fx)` -/
  matchSeg : SegmentInfo → Bool → ClipM
  /-- `flame.import_clips(path, reel)[0]` -/
  importClip : String → ClipM
  /-- `load_slate_setup`: the lines of the `.ttg` template for a resolution -/
  template : String → List (List Char)
  /-- ShotGrid Shot description by shot code -/
  shotDescription : String → String
  /-- ShotGrid Version `user['name']` by version code -/
  versionUser : String → String
  /-- ShotGrid Version description by version code -/
  versionDescription : String → String
  /-- `date.today().strftime('%-m/%-d/%Y')` -/
  todayStr : String
  /-- `flame_engine.context.project['name']` -/
  projectName : String

/-- `SLATE_BG_PATH` before resolution substitution. -/
def SLATE_BG_PATH : String :=
  SCRIPT_PATH ++ "/slate_bg_samples/mti_slate_bg_RESOLUTION.dpx"

/-- `THUMBNAIL_SETUP` constant. -/
def THUMBNAIL_SETUP : String := SCRIPT_PATH ++ "/setups/timeline_thumbnail.action"

/-- `SLATE_BG_PATH.replace('RESOLUTION', resolution)`. -/
def bgPathFor (resolution : String) : String :=
  String.mk (pyReplace SLATE_BG_PATH.data "RESOLUTION".data resolution.data)

/-- `f'{width}x{height}'`. -/
def resolutionStr (w h : Nat) : String := Nat.repr w ++ "x" ++ Nat.repr h

/-- Python `str.endswith`, on the character lists (kernel-reducible, unlike
the byte-position-based core `String.endsWith`). -/
def strEndsWith (s post : String) : Bool := post.data.isSuffixOf s.data

/-- Keep a track's segments ordered by record time when a clip is overwritten
onto it (a new segment placed before the existing content becomes the first
segment of the track). -/
def insertByTime (s : TLSeg) : List TLSeg → List TLSeg
  | [] => [s]
  | x :: xs => if s.recordTime < x.recordTime then s :: x :: xs else x :: insertByTime s xs

/-- `sequence.overwrite(clip, PyTime t, track i)`.  The two overwrites
performed by this script never overlap existing content, so overwriting is
insertion in record order. -/
def overwriteClip (seq : SeqM) (c : ClipM) (t : Int) (trackIdx : Nat) : SeqM :=
  { seq with
    tracks := seq.tracks.modify (fun tr => ⟨insertByTime ⟨c, t, []⟩ tr.segs⟩) trackIdx }

/-- `clip.open_as_sequence()`: a one-track sequence holding the clip at its
own start time, inheriting the clip's format. -/
def openAsSequence (c : ClipM) : SeqM :=
  { name := c.name
    width := c.width
    height := c.height
    bitDepth := c.bitDepth
    scanMode := c.scanMode
    frameRate := c.frameRate
    startAt := c.startTime
    audioTracks := 0
    colourSpace := c.colourSpace
    tracks := [⟨[⟨c, c.startTime, []⟩]⟩] }

/-- Rewrite the effect stack of segment `j` of track `i` (a no-op when the
segment does not exist; in every use below it does by construction). -/
def modifySegEffects (seq : SeqM) (i j : Nat) (f : List EffectM → List EffectM) : SeqM :=
  { seq with
    tracks := seq.tracks.modify (fun tr => ⟨tr.segs.modify
      (fun s => { s with effects := f s.effects }) j⟩) i }

/-- `extract_thumbnail` (lines 234-249): match the segment into the temp reel
and set in/out marks around the first frame used in the edit. -/
def extract_thumbnail (env : BuildEnv) (shot : SegmentInfo) (effects : Bool) : ClipM :=
  let thumb_clip := env.matchSeg shot effects
  { thumb_clip with inMark := some (shot.head + 1), outMark := some (shot.head + 2) }

/-- `create_offline_sequence` (lines 208-232): match the segment (with its
timeline FX) into the temp reel, create a 1920x1080 / 16-bit / progressive /
23.976 fps sequence named after it, and overwrite the matched clip into it.
Returns the matched clip (it stays in the temp reel) and the sequence. -/
def create_offline_sequence (env : BuildEnv) (shot : SegmentInfo) : ClipM × SeqM :=
  let match_clip := env.matchSeg shot true
  let offline_sequence : SeqM :=
    { name := match_clip.name
      width := 1920
      height := 1080
      bitDepth := 16
      scanMode := "P"
      frameRate := "23.976 fps"
      startAt := match_clip.startTime
      audioTracks := 0
      colourSpace := match_clip.colourSpace
      tracks := [⟨[]⟩] }
  (match_clip, overwriteClip offline_sequence match_clip match_clip.startTime 0)

/-- `insert_slate_frame` (lines 166-188): overwrite the slate background onto
track 1 (index 0) at `PyTime(0)`, create a second track and overwrite the
thumbnail clip onto it at `PyTime(1 - shot.head)`, then give the thumbnail
segment an `Action` effect: `create_effect('Action')` appends it,
`effects[0].bypass = False` touches the first effect of the stack, and
`load_setup` is called on the appended effect. -/
def insert_slate_frame (sequence : SeqM) (shot : SegmentInfo)
    (bg thumbnail_clip : ClipM) : SeqM :=
  let s1 := overwriteClip sequence bg 0 0
  let s2 := { s1 with tracks := s1.tracks ++ [⟨[]⟩] }
  let s3 := overwriteClip s2 thumbnail_clip (1 - shot.head) 1
  modifySegEffects s3 1 0 (fun effs =>
    let effs1 := effs ++ [{ effectType := "Action" }]
    let effs2 := effs1.modify (fun e => { e with bypass := some false }) 0
    effs2.modify (fun e => { e with setupPath := some THUMBNAIL_SETUP }) (effs1.length - 1))

/-- Python `l[i]` with negative indexing; `none` models `IndexError`. -/
def pyIdx {α : Type} (l : List α) (i : Int) : Option α :=
  let j := if i < 0 then i + l.length else i
  if 0 ≤ j ∧ j < l.length then l.get? j.toNat else none

/-- Python dict assignment `m[k] = v` on an insertion-ordered association
list: overwrite in place when the key exists, append otherwise. -/
def dictSet {α β : Type} [DecidableEq α] (m : List (α × β)) (k : α) (v : β) :
    List (α × β) :=
  if m.any (fun p => p.1 = k) then m.map (fun p => if p.1 = k then (k, v) else p)
  else m ++ [(k, v)]

/-- Python dict lookup `m[k]`; `none` models `KeyError`. -/
def dictGet {α β : Type} [DecidableEq α] (m : List (α × β)) (k : α) : Option β :=
  (m.find? (fun p => p.1 = k)).map (fun p => p.2)

/-- `get_slate_info` (lines 291-318): the tag-to-value dict, in the source's
insertion order.  `version_name.split('_')[-2]` raises when the name has no
`'_'`, hence the `Option`. -/
def get_slate_info (env : BuildEnv) (shot : SegmentInfo) :
    Option (List (List Char × List Char)) := do
  let version_name := shot.name
  let version_components := splitSep '_' version_name.data
  let typeComp ← pyIdx version_components (-2)
  let versionComp ← pyIdx version_components (-1)
  some [("<CODE>".data, shot.shotName.data),
        ("<DESCRIPTION>".data, (env.shotDescription shot.shotName).data),
        ("<TYPE>".data, typeComp),
        ("<VERSION>".data, versionComp),
        ("<CURRENT_DATE>".data, env.todayStr.data),
        ("<ARTIST>".data, (env.versionUser version_name).data),
        ("<DURATION>".data, (toString shot.sourceDuration).data ++ " frames".data),
        ("<HANDLES>".data, (toString shot.head).data ++ " frames".data),
        ("<FILE_NAME>".data, (version_name ++ ".mov").data),
        ("<NOTES>".data, (env.versionDescription version_name).data)]

/-- `generate_slate` (lines 265-289) at the master-sequence level: read the
resolution out of the dict, rewrite the template for that resolution, write
the setup under `TEMP_FOLDER/{code}-{resolution}.ttg`, and attach a `Text`
effect loaded with it to `tracks[0].segments[0]` (the slate background). -/
def generate_slate_m (env : BuildEnv) (shot_sequence : SeqM)
    (slate_info : List (List Char × List Char)) : Option SeqM := do
  let resolution ← dictGet slate_info "<RESOLUTION>".data
  let slate_setup := env.template (String.mk resolution)
  let new_setup ← generate_slate_setup slate_setup slate_info
  let code ← dictGet slate_info "<CODE>".data
  let new_setup_path :=
    TEMP_FOLDER ++ "/" ++ String.mk code ++ "-" ++ String.mk resolution ++ ".ttg"
  some (modifySegEffects shot_sequence 0 0 (fun effs =>
    effs ++ [{ effectType := "Text"
               setupPath := some new_setup_path
               setupContent := some new_setup }]))

/-- The mutable state of the per-shot loop of
`build_shot_masters_from_sequence`: the clips accumulated in the temp reel,
the resolutions whose slate background was already imported, the
`shot_names` dict, and the contents of the two master reels. -/
structure BuildState where
  tempClips : List ClipM
  resolutions : List String
  shotNames : List (String × String)
  onlineSeqs : List SeqM
  offlineSeqs : List SeqM
deriving DecidableEq, Repr

/-- One iteration of the per-shot loop (lines 59-92), in source order:
record the shot name, match the online master and build the offline sequence
(both matches land in reels), import or look up the slate background for the
online resolution (`[clip for clip in temp_reel.clips if
clip.name.get_value().endswith(resolution)][0]`), extract the two thumbnail
clips, insert the slate frames, and fill both slates. -/
def process_shot (env : BuildEnv) (offline_bg : ClipM) (st : BuildState)
    (shot : SegmentInfo) : Option BuildState := do
  let shotNames1 := dictSet st.shotNames shot.name shot.shotName
  let online_master := openAsSequence (env.matchSeg shot false)
  let mo := create_offline_sequence env shot
  let offline_master := mo.2
  let tempClips1 := st.tempClips ++ [mo.1]
  let resolution := resolutionStr online_master.width online_master.height
  let cached := resolution ∈ st.resolutions
  let online_bg_opt : Option ClipM :=
    if cached then (tempClips1.filter (fun c => strEndsWith c.name resolution)).get? 0
    else some (env.importClip (bgPathFor resolution))
  let online_bg ← online_bg_opt
  let tempClips2 := if cached then tempClips1 else tempClips1 ++ [online_bg]
  let resolutions2 := if cached then st.resolutions else st.resolutions ++ [resolution]
  let online_thumbnail := extract_thumbnail env shot false
  let offline_thumbnail := extract_thumbnail env shot true
  let tempClips3 := tempClips2 ++ [online_thumbnail, offline_thumbnail]
  let online1 := insert_slate_frame online_master shot online_bg online_thumbnail
  let offline1 := insert_slate_frame offline_master shot offline_bg offline_thumbnail
  let slate_info0 ← get_slate_info env shot
  let slate_info1 := dictSet slate_info0 "<PROJECT>".data env.projectName.data
  let info_online :=
    dictSet (dictSet slate_info1 "<RESOLUTION>".data resolution.data)
      "<COLOR_SPACE>".data online_master.colourSpace.data
  let online2 ← generate_slate_m env online1 info_online
  let info_offline :=
    dictSet (dictSet info_online "<RESOLUTION>".data "1920x1080".data)
      "<COLOR_SPACE>".data "Rec.709".data
  let offline2 ← generate_slate_m env offline1 info_offline
  some { tempClips := tempClips3
         resolutions := resolutions2
         shotNames := shotNames1
         onlineSeqs := st.onlineSeqs ++ [online2]
         offlineSeqs := st.offlineSeqs ++ [offline2] }

/-- A library of the Flame workspace, as `get_sequences_folders` reads it. -/
structure LibraryInfo where
  name : String
  folders : List String
deriving DecidableEq, Repr

/-- A folder of a workspace library. -/
structure FolderRef where
  library : String
  folder : String
deriving DecidableEq, Repr

/-- `get_sequences_folders` (lines 128-145): the first library whose name
contains `'Shot Sequences'` supplies its folders keyed by name; otherwise a
`'Shot Sequences'` library with `'online'` and `'offline'` folders is
created. -/
def get_sequences_folders (libraries : List LibraryInfo) : List (String × FolderRef) :=
  match libraries.find? (fun l => containsSub "Shot Sequences".data l.name.data) with
  | some l => l.folders.map (fun f => (f, FolderRef.mk l.name f))
  | none => [("online", FolderRef.mk "Shot Sequences" "online"),
             ("offline", FolderRef.mk "Shot Sequences" "offline")]

/-- Where a media-panel operation puts its media. -/
inductive PanelDest where
  | intoReel (name : String)
  | intoFolder (ref : FolderRef)
deriving DecidableEq, Repr

/-- One externally visible post-loop operation of the build script. -/
inductive BuildEvent where
  /-- `exporter.export(reel, MEZZANINE_PRESET, path)` -/
  | exportRender (preset reelName path : String)
  /-- `flame.media_panel.move(items, destination)` -/
  | moveItems (items : List String) (dest : PanelDest)
  /-- `flame.import_clips(sourcePath, destination)` -/
  | importClips (sourcePath : String) (dest : PanelDest)
  /-- restoring the `shot_name` metadata on the re-imported offline clips -/
  | setShotNames (assignments : List (String × String))
deriving DecidableEq, Repr

/-- `export_mezzanines` (lines 148-163): render the reel with the DPX preset
and return `os.path.join(path, reel.name)`. -/
def export_mezzanines (reelName path : String) : BuildEvent × String :=
  (BuildEvent.exportRender "Deliverable Mezzanines.xml" reelName path,
   pathJoin path reelName)

/-- The observable outcome of `build_shot_masters_from_sequence`. -/
structure BuildResult where
  onlineReelName : String
  offlineReelName : String
  onlineSeqs : List SeqM
  offlineSeqs : List SeqM
  shotNames : List (String × String)
  events : List BuildEvent
deriving DecidableEq, Repr

/-- `build_shot_masters_from_sequence` (lines 27-126).  `linked` is whether
the project is linked to ShotGrid (the script silently returns otherwise);
`mezzanines_path` is the browser selection, `""` when cancelled (theexport
block is skipped); `libraries` are the workspace libraries seen by
`get_sequences_folders`.  `none` models an uncaught exception. -/
def build_shot_masters_from_sequence (env : BuildEnv) (linked : Bool)
    (sequence : SequenceInfo) (mezzanines_path : String)
    (libraries : List LibraryInfo) : Option BuildResult := do
  if !linked then
    some { onlineReelName := "", offlineReelName := "", onlineSeqs := [],
           offlineSeqs := [], shotNames := [], events := [] }
  else
    let submission_name := sequence.name
    let offlineReelName := submission_name
    let onlineReelName :=
      String.mk (pyReplace submission_name.data "comp_submissions".data "mti".data)
    let offline_bg := env.importClip (bgPathFor "1920x1080")
    let st0 : BuildState :=
      { tempClips := [offline_bg], resolutions := [], shotNames := [],
        onlineSeqs := [], offlineSeqs := [] }
    let stN ← (collect_sequence_segments sequence).foldlM (process_shot env offline_bg) st0
    let archive_library := get_sequences_folders libraries
    if mezzanines_path = "" then
      some { onlineReelName, offlineReelName, onlineSeqs := stN.onlineSeqs,
             offlineSeqs := stN.offlineSeqs, shotNames := stN.shotNames, events := [] }
    else
      let eo := export_mezzanines onlineReelName mezzanines_path
      let ef := export_mezzanines offlineReelName mezzanines_path
      let onlineFolder ← dictGet archive_library "online"
      let offlineFolder ← dictGet archive_library "offline"
      let events :=
        [eo.1, ef.1,
         BuildEvent.moveItems (stN.onlineSeqs.map (fun s => s.name))
           (PanelDest.intoFolder onlineFolder),
         BuildEvent.importClips eo.2 (PanelDest.intoReel onlineReelName),
         BuildEvent.moveItems (stN.offlineSeqs.map (fun s => s.name))
           (PanelDest.intoFolder offlineFolder),
         BuildEvent.importClips ef.2 (PanelDest.intoReel offlineReelName),
         BuildEvent.setShotNames stN.shotNames]
      some { onlineReelName, offlineReelName, onlineSeqs := stN.onlineSeqs,
             offlineSeqs := stN.offlineSeqs, shotNames := stN.shotNames, events }

/-! ### Specification-side vocabulary

The definitions below restate, on the specification side, what the claims
predict; the theorems connect them to the operational model above. -/

/-- The upload events C1 predicts for one version: one attempt, and exactly
when the first attempt raises, a one-second sleep followed by one more. -/
def expected_upload_events (env : SGEnv) (v : CreatedVersion) : List DeliveryEvent :=
  if env.uploadRaises v.id 1 then
    [.uploadAttempt v.id, .sleepSeconds 1, .uploadAttempt v.id]
  else [.uploadAttempt v.id]

/-- Whether a delivery event is a Playlist creation. -/
def isPlaylistEvent : DeliveryEvent → Bool
  | .createPlaylist _ _ _ => true
  | _ => false

/-- Whether a delivery event is a Version creation. -/
def isVersionEvent : DeliveryEvent → Bool
  | .createVersion _ _ => true
  | _ => false

/-- The value actually substituted by `replace_token`: a falsy (empty) value
becomes a single space. -/
def pyValue (value : List Char) : List Char :=
  if value = [] then [' '] else value

/-- The template line at index `i` starts with `'Text'` and contains the
code-point pattern of `token`. -/
def lineMatchesB (slate_setup : List (List Char)) (token : List Char) (i : Nat) : Bool :=
  match slate_setup.get? i with
  | some line => "Text".data.isPrefixOf line && containsSub (ascii_convert token) line
  | none => false

/-- Some snapshotted line with index `j` contains `pattern`. -/
def hasMatch (pattern : List Char) (tl : List (Int × List Char)) (j : Nat) : Bool :=
  tl.any (fun p => p.1 == (j : Int) && containsSub pattern p.2)

/-- The value that survives at key `k` after an association list is applied
left to right (a later assignment overwrites an earlier one). -/
def lastAssign (pairs : List (Int × List Char)) (k : Int) : Option (List Char) :=
  match pairs with
  | [] => none
  | p :: ps =>
    match lastAssign ps k with
    | some v => some v
    | none => if p.1 = k then some p.2 else none

/-- Normalization of a Python list index: negative indices count from the
end. -/
def normKey (n : Nat) (i : Int) : Int :=
  if i < 0 then i + n else i

/-- What C2 (amended) predicts for line `k` of the final setup: a `TextLength`
line when line `k+1` is a matched `'Text'` line, the rewritten line when line
`k` is matched, the original line otherwise. -/
def expectedFinal (slate_setup : List (List Char))
    (slate_info : List (List Char × List Char)) (k : Nat) : Option (List Char) :=
  match slate_info.find? (fun p => lineMatchesB slate_setup p.1 (k + 1)) with
  | some p => some (textLengthLine (pyValue p.2).length)
  | none =>
    match slate_info.find? (fun p => lineMatchesB slate_setup p.1 k) with
    | some p =>
      (slate_setup.get? k).map
        (fun line => pyReplace line (ascii_convert p.1) (ascii_convert (pyValue p.2)))
    | none => slate_setup.get? k

/-- The resolution string the script computes for a shot's online master. -/
def resOf (env : BuildEnv) (shot : SegmentInfo) : String :=
  resolutionStr (env.matchSeg shot false).width (env.matchSeg shot false).height

/-- The resolutions whose slate background the build run touches. -/
def relevantRes (env : BuildEnv) (sequence : SequenceInfo) : List String :=
  "1920x1080" :: (collect_sequence_segments sequence).map (resOf env)

/-- The slate-info dict used for a shot's online master. -/
def online_slate_info (env : BuildEnv) (shot : SegmentInfo) :
    List (List Char × List Char) :=
  dictSet (dictSet (dictSet ((get_slate_info env shot).getD [])
      "<PROJECT>".data env.projectName.data)
    "<RESOLUTION>".data (resOf env shot).data)
    "<COLOR_SPACE>".data (env.matchSeg shot false).colourSpace.data

/-- The slate-info dict used for a shot's offline master. -/
def offline_slate_info (env : BuildEnv) (shot : SegmentInfo) :
    List (List Char × List Char) :=
  dictSet (dictSet (online_slate_info env shot) "<RESOLUTION>".data "1920x1080".data)
    "<COLOR_SPACE>".data "Rec.709".data

/-- The `Text` slate effect C3 predicts on the first segment of track 1. -/
def slate_text_effect (env : BuildEnv) (shot : SegmentInfo)
    (info : List (List Char × List Char)) (resolution : String) : EffectM :=
  { effectType := "Text"
    setupPath := some (TEMP_FOLDER ++ "/" ++ shot.shotName ++ "-" ++ resolution ++ ".ttg")
    setupContent := generate_slate_setup (env.template resolution) info }

/-- The `Action` thumbnail effect left on the thumbnail segment. -/
def thumbnail_action_effect : EffectM :=
  { effectType := "Action", bypass := some false, setupPath := some THUMBNAIL_SETUP }

/-- The slated master a shot's matched clip becomes: slate background (with
the filled `Text` effect) at record time 0 on the first track before the
clip's content, and the one-frame thumbnail alone on the second track. -/
def slated_master (env : BuildEnv) (shot : SegmentInfo) (base : SeqM)
    (bg thumb : ClipM) (info : List (List Char × List Char)) (resolution : String) :
    SeqM :=
  { base with
    tracks :=
      [⟨[⟨bg, 0, [slate_text_effect env shot info resolution]⟩,
         ⟨(base.tracks.headD ⟨[]⟩).segs.headD ⟨bg, 0, []⟩ |>.clip,
          (base.tracks.headD ⟨[]⟩).segs.headD ⟨bg, 0, []⟩ |>.recordTime, []⟩]⟩,
       ⟨[⟨thumb, 1 - shot.head, [thumbnail_action_effect]⟩]⟩] }

/-- The final online master C3/C4 predict for a shot. -/
def online_master_final (env : BuildEnv) (shot : SegmentInfo) : SeqM :=
  slated_master env shot (openAsSequence (env.matchSeg shot false))
    (env.importClip (bgPathFor (resOf env shot)))
    (extract_thumbnail env shot false)
    (online_slate_info env shot) (resOf env shot)

/-- The final offline master C3/C4 predict for a shot. -/
def offline_master_final (env : BuildEnv) (offline_bg : ClipM) (shot : SegmentInfo) :
    SeqM :=
  slated_master env shot (create_offline_sequence env shot).2
    offline_bg
    (extract_thumbnail env shot true)
    (offline_slate_info env shot) "1920x1080"

/-! ### Concrete fixtures

A small concrete environment and inputs used to instantiate the theorems. -/

/-- A one-shot editorial segment. -/
def fixSeg : SegmentInfo where
  name := "sh010_comp_v001"
  shotName := "sh010"
  segType := "Video Segment"
  head := 8
  sourceDuration := 24
  sourceWidth := 3840
  sourceHeight := 2160

/-- An editorial sequence holding `fixSeg` and one audio segment. -/
def fixSequence : SequenceInfo where
  name := "ep1_comp_submissions"
  versions := [⟨[⟨[fixSeg,
    { fixSeg with name := "sh020_comp_v002", shotName := "sh020", segType := "Audio Segment" }]⟩]⟩]

/-- A concrete Flame/ShotGrid environment for the build script. -/
def fixBuildEnv : BuildEnv where
  matchSeg := fun s fx =>
    { name := s.name ++ (if fx then "F" else "")
      width := s.sourceWidth
      height := s.sourceHeight
      bitDepth := 10
      scanMode := "P"
      frameRate := "23.976 fps"
      startTime := 86400
      colourSpace := "ACES" }
  importClip := fun p =>
    { name := String.mk (pyReplace (pyReplace p.data
        (SCRIPT_PATH ++ "/slate_bg_samples/").data []) ".dpx".data [])
      width := 1920
      height := 1080
      bitDepth := 10
      scanMode := "P"
      frameRate := "23.976 fps"
      startTime := 0
      colourSpace := "Rec.709" }
  template := fun _ => ["TextLength 6\n".data, "Text 60 67 79 68 69 62\n".data]
  shotDescription := fun _ => "desc"
  versionUser := fun _ => "artist"
  versionDescription := fun _ => "notes"
  todayStr := "1/2/2026"
  projectName := "proj"

/-- A concrete clip for the playlist script. -/
def fixClip : ClipInfo where
  name := "sh010_comp_v001"
  shotName := "sh010"
  durationFrame := 25
  ratio := "1.78"
  frameRate := "23.976 fps"

/-- A concrete `'_comp_submissions'` reel holding `fixClip`. -/
def fixReel : ReelInfo where
  name := "ep1_comp_submissions"
  clips := [fixClip]

/-- A concrete ShotGrid environment whose first upload attempt raises for
version id 40 and succeeds otherwise. -/
def fixSGEnv : SGEnv where
  findShotId := fun _ => 7
  findTaskId := fun _ => 9
  findVersionDescription := fun _ => "desc"
  userEntity := "artist"
  assignId := fun k => 40 + k
  uploadRaises := fun vid attempt => vid = 40 && attempt = 1

/-! ## Theorems -/

/-- Helper: `delete_temp_folder` is the identity when the folder is absent. -/
theorem delete_temp_folder_noop (fs : DiskFS) (h : fs TEMP_FOLDER = false) :
    delete_temp_folder fs = fs := by
  unfold delete_temp_folder
  rw [h]
  simp

/-- Helper: after any call to `delete_temp_folder` the folder is gone. -/
theorem delete_temp_folder_gone (fs : DiskFS) :
    delete_temp_folder fs TEMP_FOLDER = false := by
  unfold delete_temp_folder
  by_cases h : fs TEMP_FOLDER = true
  · rw [h]
    simp [rmtree, pathIsUnder]
  · rw [Bool.not_eq_true] at h
    rw [h]
    simpa using h

/-- **C7.** After the per-shot slate loop the on-disk temp folder is removed:
whatever `write_slate_ttg` wrote, the trailing `delete_temp_folder` leaves
`TEMP_FOLDER` nonexistent; and `delete_temp_folder` is idempotent — it
removes the folder when it exists, is a no-op when it does not, and after any
call the folder does not exist. -/
theorem delete_temp_folder_cleanup (fs : DiskFS) :
    delete_temp_folder fs TEMP_FOLDER = false ∧
    delete_temp_folder (delete_temp_folder fs) = delete_temp_folder fs ∧
    (fs TEMP_FOLDER = false → delete_temp_folder fs = fs) ∧
    ∀ names : List String,
      delete_temp_folder
        (names.foldl (fun s n => write_slate_ttg_fs n s) fs) TEMP_FOLDER = false := by
  refine ⟨delete_temp_folder_gone fs, ?_, delete_temp_folder_noop fs, ?_⟩
  · exact delete_temp_folder_noop _ (delete_temp_folder_gone fs)
  · intro names
    exact delete_temp_folder_gone _

/-- **C7 witness.** The cleanup facts at a concrete disk state. -/
theorem delete_temp_folder_cleanup_witness :
    (fun _ : String => false) TEMP_FOLDER = false ∧
    delete_temp_folder (fun _ => true) TEMP_FOLDER = false ∧
    delete_temp_folder (fun _ => false) = (fun _ => false) ∧
    delete_temp_folder
      (["a"].foldl (fun s n => write_slate_ttg_fs n s) (fun _ => false))
      TEMP_FOLDER = false :=
  ⟨rfl, (delete_temp_folder_cleanup (fun _ => true)).1,
    (delete_temp_folder_cleanup (fun _ => false)).2.2.1 rfl,
    (delete_temp_folder_cleanup (fun _ => false)).2.2.2 ["a"]⟩

/-- **C8.** `scope_reel` only rejects selections longer than one entry before
indexing `selection[0]`: on the empty selection it raises `IndexError`
(`none`) instead of returning `False`, and it returns a value for every
non-empty selection; `scope_sequence` first requires the length to be exactly
one and returns a value for every selection. -/
theorem scope_reel_empty_raises (selection : List PanelEntry) :
    scope_reel [] = none ∧
    (selection ≠ [] → (scope_reel selection).isSome = true) ∧
    (∀ sel : List PanelEntry, (scope_sequence sel).isSome = true) := by
  refine ⟨rfl, ?_, ?_⟩
  · intro hne
    cases selection with
    | nil => exact absurd rfl hne
    | cons e rest =>
      show (scope_reel (e :: rest)).isSome = true
      unfold scope_reel
      by_cases h1 : (e :: rest).length > 1
      · rw [if_pos h1]
        rfl
      · rw [if_neg h1]
        show (match some e with
          | none => none
          | some e => if !isPyReel e then some false
              else if containsSub "comp_submissions".data (entryName e).data then some true
              else some false).isSome = true
        cases hb : isPyReel e
        · simp [hb]
        · simp only [hb]
          by_cases h2 : containsSub "comp_submissions".data (entryName e).data = true
          · simp [h2]
          · simp [h2]
  · intro sel
    unfold scope_sequence
    by_cases h1 : sel.length ≠ 1
    · rw [if_pos h1]
      rfl
    · rw [if_neg h1]
      rw [Decidable.not_not] at h1
      match sel, h1 with
      | [e], _ =>
        show (match some e with
          | none => none
          | some e => if !isPySequence e then some false
              else if !(entryName e).endsWith "comp_submissions" then some false
              else some true).isSome = true
        cases hb : isPySequence e
        · simp [hb]
        · simp only [hb]
          by_cases h2 : (entryName e).endsWith "comp_submissions" = true
          · simp [h2]
          · simp [h2]

/-- **C8 witness.** -/
theorem scope_reel_empty_raises_witness :
    ([PanelEntry.reel "x_comp_submissions"] ≠ ([] : List PanelEntry)) ∧
    (scope_reel [PanelEntry.reel "x_comp_submissions"]).isSome = true :=
  ⟨by decide,
    (scope_reel_empty_raises [PanelEntry.reel "x_comp_submissions"]).2.1 (by decide)⟩

/-- **C10.** Every Version record built by `create_versions` satisfies
`sg_last_frame - sg_first_frame + 1 = frame_count`, with `sg_first_frame`
always 1001, `sg_last_frame` the clip duration in frames plus 999 and
`frame_count` the clip duration in frames minus 1. -/
theorem create_versions_frame_relation (reel : ReelInfo) (project_id : Nat)
    (path : String) (env : SGEnv) (i : Nat) (v : CreatedVersion) (c : ClipInfo)
    (hv : (create_versions reel project_id path env).get? i = some v)
    (hc : reel.clips.get? i = some c) :
    v.data.lastFrame - v.data.firstFrame + 1 = v.data.frameCount ∧
    v.data.firstFrame = 1001 ∧
    v.data.lastFrame = c.durationFrame + 999 ∧
    v.data.frameCount = c.durationFrame - 1 := by
  simp only [create_versions, List.get?_eq_getElem?, List.getElem?_map,
    List.getElem?_enum] at hv hc
  rw [hc] at hv
  simp only [Option.map_some'] at hv
  cases hv
  refine ⟨?_, rfl, rfl, rfl⟩
  show c.durationFrame + 999 - 1001 + 1 = c.durationFrame - 1
  omega

/-- **C10 witness.** -/
theorem create_versions_frame_relation_witness :
    (create_versions fixReel 1 "/data/out" fixSGEnv).get? 0 =
      some { id := 40, data := version_data_for 1 "/data/out" fixReel.name fixSGEnv fixClip } ∧
    fixReel.clips.get? 0 = some fixClip ∧
    ((version_data_for 1 "/data/out" fixReel.name fixSGEnv fixClip).lastFrame -
        (version_data_for 1 "/data/out" fixReel.name fixSGEnv fixClip).firstFrame + 1 =
      (version_data_for 1 "/data/out" fixReel.name fixSGEnv fixClip).frameCount) :=
  ⟨rfl, rfl,
    (create_versions_frame_relation fixReel 1 "/data/out" fixSGEnv 0 _ fixClip rfl rfl).1⟩

/-- Helper: when no version suffers a double upload failure, the upload loop
emits exactly the expected events per version, in order, and succeeds. -/
theorem upload_loop_ok (env : SGEnv) :
    ∀ versions : List CreatedVersion,
      (∀ v ∈ versions, env.uploadRaises v.id 1 = true → env.uploadRaises v.id 2 = false) →
      upload_loop env versions = (versions.flatMap (expected_upload_events env), true) := by
  intro versions
  induction versions with
  | nil => intro _; rfl
  | cons v rest ih =>
    intro h
    have hrest := fun u hu => h u (List.mem_cons_of_mem v hu)
    unfold upload_loop
    cases hr1 : env.uploadRaises v.id 1 with
    | false =>
      rw [ih hrest]
      simp [expected_upload_events, hr1]
    | true =>
      have hr2 := h v (List.mem_cons_self v rest) hr1
      rw [hr2]
      simp only [Bool.false_eq_true, if_false, if_true]
      rw [ih hrest]
      simp [expected_upload_events, hr1]

/-- Helper: the first version whose retry also raises aborts the loop: its
own attempts (first attempt, one-second sleep, retry) are the last events and
no later version is attempted. -/
theorem upload_loop_abort (env : SGEnv) :
    ∀ (pre : List CreatedVersion) (v : CreatedVersion) (post : List CreatedVersion),
      (∀ u ∈ pre, env.uploadRaises u.id 1 = true → env.uploadRaises u.id 2 = false) →
      env.uploadRaises v.id 1 = true → env.uploadRaises v.id 2 = true →
      upload_loop env (pre ++ v :: post) =
        (pre.flatMap (expected_upload_events env) ++
          [.uploadAttempt v.id, .sleepSeconds 1, .uploadAttempt v.id], false) := by
  intro pre
  induction pre with
  | nil =>
    intro v post _ h1 h2
    unfold upload_loop
    rw [List.nil_append]
    simp [h1, h2]
  | cons u rest ih =>
    intro v post h h1 h2
    have hu := h u (List.mem_cons_self u rest)
    have hrest := fun w hw => h w (List.mem_cons_of_mem u hw)
    rw [List.cons_append]
    unfold upload_loop
    cases hr1 : env.uploadRaises u.id 1 with
    | false =>
      rw [ih v post hrest h1 h2]
      simp [expected_upload_events, hr1]
    | true =>
      rw [hu hr1]
      simp only [Bool.false_eq_true, if_false, if_true]
      rw [ih v post hrest h1 h2]
      simp [expected_upload_events, hr1]

/-- **C1.** In `send_h264s_to_shotgrid`, after the one H.264 render, every
version's upload is attempted once, and exactly when that first call raises,
retried exactly once more after a one-second sleep; when some version's retry
raises, the exception is not caught: the loop stops there, later versions are
never attempted, and the function does not complete. -/
theorem send_h264s_retry_policy (versions : List CreatedVersion) (path : String)
    (env : SGEnv) :
    ((∀ v ∈ versions, env.uploadRaises v.id 1 = true → env.uploadRaises v.id 2 = false) →
      send_h264s_to_shotgrid versions path env =
        (DeliveryEvent.exportRender "Shotgrid Version Creation.xml" path ::
          versions.flatMap (expected_upload_events env), true)) ∧
    (∀ pre v post, versions = pre ++ v :: post →
      (∀ u ∈ pre, env.uploadRaises u.id 1 = true → env.uploadRaises u.id 2 = false) →
      env.uploadRaises v.id 1 = true → env.uploadRaises v.id 2 = true →
      send_h264s_to_shotgrid versions path env =
        (DeliveryEvent.exportRender "Shotgrid Version Creation.xml" path ::
          (pre.flatMap (expected_upload_events env) ++
            [.uploadAttempt v.id, .sleepSeconds 1, .uploadAttempt v.id]), false)) := by
  constructor
  · intro h
    unfold send_h264s_to_shotgrid
    rw [upload_loop_ok env versions h]
  · intro pre v post hsplit hpre h1 h2
    unfold send_h264s_to_shotgrid
    rw [hsplit, upload_loop_abort env pre v post hpre h1 h2]

/-- **C1 witness.** In the fixture environment version 40's first upload
raises and its retry succeeds, so it is attempted exactly twice around a
one-second sleep. -/
theorem send_h264s_retry_policy_witness :
    send_h264s_to_shotgrid (create_versions fixReel 1 "/data/out" fixSGEnv)
        "/data/out" fixSGEnv =
      (DeliveryEvent.exportRender "Shotgrid Version Creation.xml" "/data/out" ::
        (create_versions fixReel 1 "/data/out" fixSGEnv).flatMap
          (expected_upload_events fixSGEnv), true) :=
  (send_h264s_retry_policy (create_versions fixReel 1 "/data/out" fixSGEnv)
    "/data/out" fixSGEnv).1 (by decide)

/-- Helper: upload-loop events are neither Version nor Playlist creations. -/
theorem expected_upload_events_kinds (env : SGEnv) (v : CreatedVersion)
    (e : DeliveryEvent) (he : e ∈ expected_upload_events env v) :
    isPlaylistEvent e = false ∧ isVersionEvent e = false := by
  unfold expected_upload_events at he
  split at he
  · simp only [List.mem_cons, List.not_mem_nil, or_false] at he
    rcases he with h | h | h <;> subst h <;> exact ⟨rfl, rfl⟩
  · simp only [List.mem_cons, List.not_mem_nil, or_false] at he
    subst he
    exact ⟨rfl, rfl⟩

/-- **C5.** When `create_client_delivery` completes (a destination was
chosen, the project is linked, and no upload aborts the run), one Version
record with status `'rev'` is created per clip of the reel, in reel order,
and afterwards — as the final operation — exactly one Playlist record is
created whose code is the reel's name and whose versions list is precisely
the ids of the versions returned by `create_versions`, in the same order. -/
theorem create_client_delivery_playlist (reel : ReelInfo) (export_path : String)
    (project_id : Nat) (env : SGEnv)
    (hpath : export_path ≠ "")
    (hupl : ∀ v ∈ create_versions reel project_id export_path env,
      env.uploadRaises v.id 1 = true → env.uploadRaises v.id 2 = false) :
    (create_client_delivery reel export_path (some project_id) env).2 = true ∧
    (create_versions reel project_id export_path env).length = reel.clips.length ∧
    (∀ v ∈ create_versions reel project_id export_path env,
      v.data.statusList = "rev") ∧
    (create_client_delivery reel export_path (some project_id) env).1.filter
        isVersionEvent =
      (create_versions reel project_id export_path env).map
        (fun v => DeliveryEvent.createVersion v.id v.data) ∧
    (create_client_delivery reel export_path (some project_id) env).1.filter
        isPlaylistEvent =
      [DeliveryEvent.createPlaylist reel.name
        ((create_versions reel project_id export_path env).map (fun v => v.id))
        project_id] ∧
    (create_client_delivery reel export_path (some project_id) env).1.getLast? =
      some (DeliveryEvent.createPlaylist reel.name
        ((create_versions reel project_id export_path env).map (fun v => v.id))
        project_id) := by
  have hsend := (send_h264s_retry_policy
    (create_versions reel project_id export_path env) export_path env).1 hupl
  have hr : create_client_delivery reel export_path (some project_id) env =
      (DeliveryEvent.exportRender "Editorial DNx36.xml" export_path ::
        ((create_versions reel project_id export_path env).map
          (fun v => DeliveryEvent.createVersion v.id v.data) ++
        ((DeliveryEvent.exportRender "Shotgrid Version Creation.xml" export_path ::
          (create_versions reel project_id export_path env).flatMap
            (expected_upload_events env)) ++
        [create_playlist reel.name (create_versions reel project_id export_path env)
          project_id])), true) := by
    unfold create_client_delivery
    rw [if_neg hpath]
    simp [hsend]
  refine ⟨by rw [hr], ?_, ?_, ?_, ?_, ?_⟩
  · simp [create_versions]
  · intro v hv
    simp only [create_versions, List.mem_map] at hv
    obtain ⟨p, _, hp⟩ := hv
    rw [← hp]
    rfl
  · rw [hr]
    simp only [List.filter_cons, List.filter_append]
    have h1 : isVersionEvent (DeliveryEvent.exportRender "Editorial DNx36.xml"
        export_path) = false := rfl
    have h2 : ((create_versions reel project_id export_path env).map
        (fun v => DeliveryEvent.createVersion v.id v.data)).filter isVersionEvent =
        (create_versions reel project_id export_path env).map
          (fun v => DeliveryEvent.createVersion v.id v.data) := by
      rw [List.filter_eq_self]
      intro e he
      simp only [List.mem_map] at he
      obtain ⟨v, _, hv⟩ := he
      rw [← hv]
      rfl
    have h3 : ((create_versions reel project_id export_path env).flatMap
        (expected_upload_events env)).filter isVersionEvent = [] := by
      rw [List.filter_eq_nil_iff]
      intro e he
      simp only [List.mem_flatMap] at he
      obtain ⟨v, _, hv⟩ := he
      simp [(expected_upload_events_kinds env v e hv).2]
    simp [h1, h2, h3, create_playlist, isVersionEvent]
  · rw [hr]
    simp only [List.filter_cons, List.filter_append]
    have h2 : ((create_versions reel project_id export_path env).map
        (fun v => DeliveryEvent.createVersion v.id v.data)).filter isPlaylistEvent =
        [] := by
      rw [List.filter_eq_nil_iff]
      intro e he
      simp only [List.mem_map] at he
      obtain ⟨v, _, hv⟩ := he
      rw [← hv]
      simp [isPlaylistEvent]
    have h3 : ((create_versions reel project_id export_path env).flatMap
        (expected_upload_events env)).filter isPlaylistEvent = [] := by
      rw [List.filter_eq_nil_iff]
      intro e he
      simp only [List.mem_flatMap] at he
      obtain ⟨v, _, hv⟩ := he
      simp [(expected_upload_events_kinds env v e hv).1]
    simp [h2, h3, create_playlist, isPlaylistEvent]
  · rw [hr]
    have hshape :
        DeliveryEvent.exportRender "Editorial DNx36.xml" export_path ::
          ((create_versions reel project_id export_path env).map
            (fun v => DeliveryEvent.createVersion v.id v.data) ++
          (DeliveryEvent.exportRender "Shotgrid Version Creation.xml" export_path ::
            (create_versions reel project_id export_path env).flatMap
              (expected_upload_events env) ++
          [create_playlist reel.name (create_versions reel project_id export_path env)
            project_id])) =
        (DeliveryEvent.exportRender "Editorial DNx36.xml" export_path ::
          ((create_versions reel project_id export_path env).map
            (fun v => DeliveryEvent.createVersion v.id v.data) ++
          (DeliveryEvent.exportRender "Shotgrid Version Creation.xml" export_path ::
            (create_versions reel project_id export_path env).flatMap
              (expected_upload_events env)))) ++
          [create_playlist reel.name (create_versions reel project_id export_path env)
            project_id] := by
      simp
    rw [hshape, List.getLast?_concat]
    rfl

/-- **C5 witness.** -/
theorem create_client_delivery_playlist_witness :
    ("/data/out" ≠ "") ∧
    (create_client_delivery fixReel "/data/out" (some 1) fixSGEnv).1.filter
        isPlaylistEvent =
      [DeliveryEvent.createPlaylist fixReel.name
        ((create_versions fixReel 1 "/data/out" fixSGEnv).map (fun v => v.id)) 1] :=
  ⟨by decide,
    (create_client_delivery_playlist fixReel "/data/out" 1 fixSGEnv
      (by decide) (by decide)).2.2.2.2.1⟩

/-- Helper: `Nat.toDigitsCore` prepends digits in front of its accumulator. -/
theorem toDigitsCore_append (b : Nat) :
    ∀ (fuel n : Nat) (ds : List Char),
      Nat.toDigitsCore b fuel n ds = Nat.toDigitsCore b fuel n [] ++ ds := by
  intro fuel
  induction fuel with
  | zero => intro n ds; rfl
  | succ fuel ih =>
    intro n ds
    show (if n / b = 0 then Nat.digitChar (n % b) :: ds
        else Nat.toDigitsCore b fuel (n / b) (Nat.digitChar (n % b) :: ds)) =
      (if n / b = 0 then [Nat.digitChar (n % b)]
        else Nat.toDigitsCore b fuel (n / b) [Nat.digitChar (n % b)]) ++ ds
    by_cases h : n / b = 0
    · simp [h]
    · rw [if_neg h, if_neg h, ih (n / b) (Nat.digitChar (n % b) :: ds),
        ih (n / b) [Nat.digitChar (n % b)], List.append_assoc]
      rfl

/-- Helper: with enough fuel, the fuel does not influence `Nat.toDigitsCore`. -/
theorem toDigitsCore_fuel (b : Nat) (hb : 2 ≤ b) :
    ∀ (n f₁ f₂ : Nat), n < f₁ → n < f₂ →
      Nat.toDigitsCore b f₁ n [] = Nat.toDigitsCore b f₂ n [] := by
  intro n
  induction n using Nat.strong_induction_on with
  | _ n ih =>
    intro f₁ f₂ h₁ h₂
    match f₁, f₂, h₁, h₂ with
    | g₁ + 1, g₂ + 1, h₁, h₂ =>
      show (if n / b = 0 then [Nat.digitChar (n % b)]
          else Nat.toDigitsCore b g₁ (n / b) [Nat.digitChar (n % b)]) =
        (if n / b = 0 then [Nat.digitChar (n % b)]
          else Nat.toDigitsCore b g₂ (n / b) [Nat.digitChar (n % b)])
      by_cases h : n / b = 0
      · rw [if_pos h, if_pos h]
      · rw [if_neg h, if_neg h,
          toDigitsCore_append b g₁ (n / b) [Nat.digitChar (n % b)],
          toDigitsCore_append b g₂ (n / b) [Nat.digitChar (n % b)]]
        have hdiv : n / b < n := by
          apply Nat.div_lt_self
          · rcases Nat.eq_zero_or_pos n with h0 | h0
            · exfalso; apply h; rw [h0]; simp
            · exact h0
          · omega
        rw [ih (n / b) hdiv g₁ g₂ (by omega) (by omega)]

/-- Helper: `decVal` of an appended digit. -/
theorem decVal_concat (l : List Char) (c : Char) :
    decVal (l ++ [c]) = 10 * decVal l + (c.toNat - 48) := by
  unfold decVal
  rw [List.foldl_append]
  rfl

/-- Helper: `decVal` inverts `Nat.toDigits 10`. -/
theorem decVal_toDigits (n : Nat) : decVal (Nat.toDigits 10 n) = n := by
  induction n using Nat.strong_induction_on with
  | _ n ih =>
    show decVal (Nat.toDigitsCore 10 (n + 1) n []) = n
    by_cases h : n / 10 = 0
    · have : Nat.toDigitsCore 10 (n + 1) n [] = [Nat.digitChar (n % 10)] := by
        show (if n / 10 = 0 then [Nat.digitChar (n % 10)]
            else Nat.toDigitsCore 10 n (n / 10) [Nat.digitChar (n % 10)]) = _
        rw [if_pos h]
      rw [this]
      have hn : n < 10 := by omega
      have hmod : n % 10 = n := Nat.mod_eq_of_lt hn
      have hd : ∀ k, k < 10 → (Nat.digitChar k).toNat = 48 + k := by decide
      show 10 * 0 + ((Nat.digitChar (n % 10)).toNat - 48) = n
      rw [hmod, hd n hn]
      omega
    · have step : Nat.toDigitsCore 10 (n + 1) n [] =
          Nat.toDigitsCore 10 n (n / 10) [Nat.digitChar (n % 10)] := by
        show (if n / 10 = 0 then [Nat.digitChar (n % 10)]
            else Nat.toDigitsCore 10 n (n / 10) [Nat.digitChar (n % 10)]) = _
        rw [if_neg h]
      have hdiv : n / 10 < n := by
        apply Nat.div_lt_self
        · rcases Nat.eq_zero_or_pos n with h0 | h0
          · exfalso; apply h; rw [h0]
          · exact h0
        · omega
      rw [step, toDigitsCore_append 10 n (n / 10) [Nat.digitChar (n % 10)],
        toDigitsCore_fuel 10 (by omega) (n / 10) n (n / 10 + 1) hdiv (Nat.lt_succ_self _)]
      rw [decVal_concat]
      have := ih (n / 10) hdiv
      unfold Nat.toDigits at this
      rw [this]
      have hd : ∀ k, k < 10 → (Nat.digitChar k).toNat = 48 + k := by decide
      rw [hd (n % 10) (Nat.mod_lt n (by omega))]
      omega

/-- Helper: `Nat.repr` exposes `Nat.toDigits 10`. -/
theorem repr_data (n : Nat) : (Nat.repr n).data = Nat.toDigits 10 n := rfl

/-- Helper: every character printed by `Nat.toDigitsCore 10` is a decimal
digit character. -/
theorem toDigitsCore_chars :
    ∀ (fuel n : Nat) (c : Char), c ∈ Nat.toDigitsCore 10 fuel n [] →
      ∃ k, k < 10 ∧ c = Nat.digitChar k := by
  intro fuel
  induction fuel with
  | zero => intro n c hc; cases hc
  | succ fuel ih =>
    intro n c hc
    have hshape : Nat.toDigitsCore 10 (fuel + 1) n [] =
        (if n / 10 = 0 then [Nat.digitChar (n % 10)]
          else Nat.toDigitsCore 10 fuel (n / 10) [Nat.digitChar (n % 10)]) := rfl
    rw [hshape] at hc
    by_cases h : n / 10 = 0
    · rw [if_pos h] at hc
      simp only [List.mem_singleton] at hc
      exact ⟨n % 10, Nat.mod_lt _ (by omega), hc⟩
    · rw [if_neg h, toDigitsCore_append 10 fuel (n / 10) [Nat.digitChar (n % 10)]] at hc
      rw [List.mem_append] at hc
      rcases hc with hc | hc
      · exact ih (n / 10) c hc
      · simp only [List.mem_singleton] at hc
        exact ⟨n % 10, Nat.mod_lt _ (by omega), hc⟩

/-- Helper: decimal representations contain no space. -/
theorem repr_no_space (n : Nat) : ' ' ∉ (Nat.repr n).data := by
  rw [repr_data]
  intro hmem
  obtain ⟨k, hk, hc⟩ := toDigitsCore_chars (n + 1) n ' ' hmem
  have : ∀ k, k < 10 → Nat.digitChar k ≠ ' ' := by decide
  exact this k hk hc.symm

/-- Helper: decimal representations are nonempty. -/
theorem repr_ne_nil (n : Nat) : (Nat.repr n).data ≠ [] := by
  rw [repr_data]
  show Nat.toDigitsCore 10 (n + 1) n [] ≠ []
  by_cases h : n / 10 = 0
  · show (if n / 10 = 0 then [Nat.digitChar (n % 10)]
        else Nat.toDigitsCore 10 n (n / 10) [Nat.digitChar (n % 10)]) ≠ []
    rw [if_pos h]
    simp
  · show (if n / 10 = 0 then [Nat.digitChar (n % 10)]
        else Nat.toDigitsCore 10 n (n / 10) [Nat.digitChar (n % 10)]) ≠ []
    rw [if_neg h, toDigitsCore_append 10 n (n / 10) [Nat.digitChar (n % 10)]]
    simp

/-- Helper: only 194 prints as `"194"`. -/
theorem repr_eq_194 (k : Nat) (h : (Nat.repr k).data = "194".data) : k = 194 := by
  have h1 : decVal (Nat.repr k).data = decVal "194".data := by rw [h]
  rw [repr_data] at h1
  rw [decVal_toDigits] at h1
  exact h1

/-- Helper: `splitSep` never returns the empty list. -/
theorem splitSep_ne_nil (sep : Char) (l : List Char) : splitSep sep l ≠ [] := by
  cases l with
  | nil => simp [splitSep]
  | cons c rest =>
    show (match splitSep sep rest with
      | [] => [[]]
      | t :: ts => if c = sep then [] :: t :: ts else (c :: t) :: ts) ≠ []
    cases splitSep sep rest with
    | nil => simp
    | cons t ts =>
      by_cases hc : c = sep
      · simp [hc]
      · simp [hc]

/-- Helper: splitting a separator-free piece. -/
theorem splitSep_sepFree (sep : Char) :
    ∀ t : List Char, sep ∉ t → splitSep sep t = [t] := by
  intro t
  induction t with
  | nil => intro _; rfl
  | cons c rest ih =>
    intro h
    have hc : c ≠ sep := fun he => h (he ▸ List.mem_cons_self c rest)
    have hrest : sep ∉ rest := fun hm => h (List.mem_cons_of_mem c hm)
    show (match splitSep sep rest with
      | [] => [[]]
      | t :: ts => if c = sep then [] :: t :: ts else (c :: t) :: ts) = [c :: rest]
    rw [ih hrest]
    simp [hc]

/-- Helper: splitting after a separator-free prefix and one separator. -/
theorem splitSep_append_sep (sep : Char) :
    ∀ (t rest : List Char), sep ∉ t →
      splitSep sep (t ++ sep :: rest) = t :: splitSep sep rest := by
  intro t
  induction t with
  | nil =>
    intro rest _
    show (match splitSep sep rest with
      | [] => [[]]
      | t :: ts => if sep = sep then [] :: t :: ts else (sep :: t) :: ts) = [] :: splitSep sep rest
    match hr : splitSep sep rest with
    | [] => exact absurd hr (splitSep_ne_nil sep rest)
    | t :: ts => simp
  | cons c t' ih =>
    intro rest h
    have hc : c ≠ sep := fun he => h (he ▸ List.mem_cons_self c t')
    have ht' : sep ∉ t' := fun hm => h (List.mem_cons_of_mem c hm)
    show (match splitSep sep (t' ++ sep :: rest) with
      | [] => [[]]
      | t :: ts => if c = sep then [] :: t :: ts else (c :: t) :: ts) =
      (c :: t') :: splitSep sep rest
    rw [ih rest ht']
    simp [hc]

/-- Helper: `splitSep` inverts `joinSep` on nonempty lists of separator-free
pieces. -/
theorem splitSep_joinSep (sep : Char) :
    ∀ ts : List (List Char), ts ≠ [] → (∀ t ∈ ts, sep ∉ t) →
      splitSep sep (joinSep sep ts) = ts := by
  intro ts
  induction ts with
  | nil => intro h; cases h rfl
  | cons x rest ih =>
    intro _ hfree
    cases rest with
    | nil => exact splitSep_sepFree sep x (hfree x (List.mem_cons_self x []))
    | cons y rest' =>
      show splitSep sep (x ++ sep :: joinSep sep (y :: rest')) = x :: y :: rest'
      rw [splitSep_append_sep sep x _ (hfree x (List.mem_cons_self x _)),
        ih (by simp) (fun t ht => hfree t (List.mem_cons_of_mem x ht))]

/-- Helper: replacing a one-character pattern is a pointwise map. -/
theorem pyReplace_singleton (a b : Char) (s : List Char) :
    pyReplace s [a] [b] = s.map (fun c => if c = a then b else c) := by
  have key : ∀ s : List Char, pyReplaceAux [a] [b] s.length s =
      s.map (fun c => if c = a then b else c) := by
    intro s
    induction s with
    | nil => rfl
    | cons c rest ih =>
      show (if [a].isPrefixOf (c :: rest) ∧ [a] ≠ [] then
          [b] ++ pyReplaceAux [a] [b] rest.length ((c :: rest).drop 1)
        else c :: pyReplaceAux [a] [b] rest.length rest) = _
      by_cases hc : c = a
      · have hpre : [a].isPrefixOf (c :: rest) ∧ [a] ≠ ([] : List Char) := by
          refine ⟨?_, by simp⟩
          show (a == c && List.isPrefixOf [] rest) = true
          simp [hc]
        rw [if_pos hpre]
        show b :: pyReplaceAux [a] [b] rest.length rest = _
        rw [ih]
        simp [hc]
      · have hpre : ¬([a].isPrefixOf (c :: rest) ∧ [a] ≠ ([] : List Char)) := by
          intro hcon
          have : (a == c && List.isPrefixOf [] rest) = true := hcon.1
          simp at this
          exact hc this.symm
        rw [if_neg hpre, ih]
        simp [hc]
  unfold pyReplace
  rw [if_neg (by simp : ¬([a] = ([] : List Char)))]
  exact key s

/-- **C9.** `ascii_convert` returns the space-joined decimal code points of
its input after mapping both curly double quotes to the straight quote and
dropping every character whose code point is 194; consequently the token
`194` never appears in the output, and the output for the empty input is
empty. -/
theorem ascii_convert_spec (s : List Char) :
    ascii_convert s =
      joinSep ' '
        (((s.map (fun c => if c = '“' then '"' else if c = '”' then '"' else c)).filter
          (fun c => c.toNat ≠ 194)).map (fun c => (Nat.repr c.toNat).data)) ∧
    "194".data ∉ splitSep ' ' (ascii_convert s) ∧
    ascii_convert [] = [] := by
  have hmaps : pyReplace (pyReplace s ['“'] ['"']) ['”'] ['"'] =
      s.map (fun c => if c = '“' then '"' else if c = '”' then '"' else c) := by
    rw [pyReplace_singleton, pyReplace_singleton, List.map_map]
    congr 1
    funext c
    show (if (if c = '“' then '"' else c) = '”' then '"' else if c = '“' then '"' else c) = _
    by_cases h1 : c = '“'
    · simp [h1]
    · by_cases h2 : c = '”' <;> simp [h1, h2]
  have hconv : ascii_convert s =
      joinSep ' '
        (((s.map (fun c => if c = '“' then '"' else if c = '”' then '"' else c)).filter
          (fun c => c.toNat ≠ 194)).map (fun c => (Nat.repr c.toNat).data)) := by
    show joinSep ' '
        ((((pyReplace (pyReplace s ['“'] ['"']) ['”'] ['"']).filter
          (fun c => c.toNat ≠ 194)).map Char.toNat).map (fun a => (Nat.repr a).data)) = _
    rw [hmaps, List.map_map]
    rfl
  refine ⟨hconv, ?_, rfl⟩
  rw [hconv]
  by_cases hnil :
      ((s.map (fun c => if c = '“' then '"' else if c = '”' then '"' else c)).filter
        (fun c => c.toNat ≠ 194)).map (fun c => (Nat.repr c.toNat).data) = []
  · rw [hnil]
    show "194".data ∉ [[]]
    simp only [List.mem_singleton]
    decide
  · rw [splitSep_joinSep ' ' _ hnil ?_]
    · intro hmem
      simp only [List.mem_map] at hmem
      obtain ⟨c, hcf, hcr⟩ := hmem
      have h194 : c.toNat = 194 := repr_eq_194 c.toNat hcr
      have := List.of_mem_filter hcf
      simp only [decide_eq_true_eq] at this
      exact this h194
    · intro u hu
      simp only [List.mem_map] at hu
      obtain ⟨c, _, hcr⟩ := hu
      rw [← hcr]
      exact repr_no_space c.toNat

/-- Helper: a left fold that appends per-element blocks is a `flatMap`. -/
theorem foldl_append_flatMap {α β : Type} (g : α → List β) :
    ∀ (l : List α) (acc : List β),
      l.foldl (fun a x => a ++ g x) acc = acc ++ l.flatMap g := by
  intro l
  induction l with
  | nil => intro acc; simp
  | cons x xs ih =>
    intro acc
    rw [List.foldl_cons, ih (acc ++ g x), List.flatMap_cons, List.append_assoc]

/-- Helper: `replace_token` as a `flatMap` over the snapshotted lines. -/
theorem replace_token_eq_flatMap (token value : List Char)
    (text_lines : List (Int × List Char)) :
    replace_token token value text_lines =
      text_lines.flatMap (fun p =>
        if containsSub (ascii_convert token) p.2 then
          [(p.1, pyReplace p.2 (ascii_convert token) (ascii_convert (pyValue value))),
           (p.1 - 1, textLengthLine (pyValue value).length)]
        else []) := by
  have hfun : (fun (new_lines : List (Int × List Char)) (p : Int × List Char) =>
      if containsSub (ascii_convert token) p.2 then
        new_lines ++
          [(p.1, pyReplace p.2 (ascii_convert token) (ascii_convert (pyValue value))),
           (p.1 - 1, textLengthLine (pyValue value).length)]
      else new_lines) =
      (fun (a : List (Int × List Char)) (p : Int × List Char) =>
        a ++ (if containsSub (ascii_convert token) p.2 then
          [(p.1, pyReplace p.2 (ascii_convert token) (ascii_convert (pyValue value))),
           (p.1 - 1, textLengthLine (pyValue value).length)]
        else [])) := by
    funext a p
    by_cases h : containsSub (ascii_convert token) p.2 <;> simp [h]
  show List.foldl (fun (new_lines : List (Int × List Char)) (p : Int × List Char) =>
      if containsSub (ascii_convert token) p.2 then
        new_lines ++
          [(p.1, pyReplace p.2 (ascii_convert token) (ascii_convert (pyValue value))),
           (p.1 - 1, textLengthLine (pyValue value).length)]
      else new_lines) [] text_lines = _
  rw [hfun, foldl_append_flatMap]
  rw [List.nil_append]

/-- Helper: membership in the `'Text'`-line snapshot. -/
theorem mem_text_lines_of (slate_setup : List (List Char)) (p : Int × List Char) :
    p ∈ text_lines_of slate_setup ↔
      ∃ j : Nat, p.1 = (j : Int) ∧ slate_setup.get? j = some p.2 ∧
        "Text".data.isPrefixOf p.2 := by
  unfold text_lines_of
  rw [List.mem_map]
  constructor
  · rintro ⟨q, hq, rfl⟩
    rw [List.mem_filter] at hq
    refine ⟨q.1, rfl, ?_, by simpa using hq.2⟩
    have := List.mem_enum_iff_get?.mp hq.1
    simpa using this
  · rintro ⟨j, hj, hget, hpre⟩
    refine ⟨(j, p.2), ?_, ?_⟩
    · rw [List.mem_filter]
      exact ⟨List.mem_enum_iff_get?.mpr (by simpa using hget), by simpa using hpre⟩
    · cases p
      simp only at hj
      rw [hj]

/-- Helper: `pySet` in terms of `normKey`. -/
theorem pySet_eq {α : Type} (l : List α) (i : Int) (v : α) :
    pySet l i v =
      if 0 ≤ normKey l.length i ∧ normKey l.length i < l.length then
        some (l.set (normKey l.length i).toNat v)
      else none := rfl

/-- Helper: `lastAssign` splits over an append; later entries win. -/
theorem lastAssign_append (a b : List (Int × List Char)) (k : Int) :
    lastAssign (a ++ b) k = (lastAssign b k).elim (lastAssign a k) some := by
  induction a with
  | nil =>
    show lastAssign b k = (lastAssign b k).elim none some
    cases lastAssign b k <;> rfl
  | cons x a' ih =>
    show (match lastAssign (a' ++ b) k with
      | some v => some v
      | none => if x.1 = k then some x.2 else none) = _
    rw [ih]
    cases hb : lastAssign b k with
    | some w => rfl
    | none =>
      show (match lastAssign a' k with
        | some v => some v
        | none => if x.1 = k then some x.2 else none) = _
      rfl

/-- Helper: `update_setup` succeeds when every (normalized) index is in
range, preserves the length, and leaves at index `k` the last value assigned
to `k`, or the original line. -/
theorem update_setup_char :
    ∀ (pairs : List (Int × List Char)) (setup : List (List Char)),
      (∀ p ∈ pairs, 0 ≤ normKey setup.length p.1 ∧
        normKey setup.length p.1 < setup.length) →
      ∃ r, update_setup setup pairs = some r ∧ r.length = setup.length ∧
        ∀ k : Nat, r.get? k =
          (lastAssign (pairs.map (fun p => (normKey setup.length p.1, p.2))) k).elim
            (setup.get? k) some := by
  intro pairs
  induction pairs with
  | nil =>
    intro setup _
    exact ⟨setup, rfl, rfl, fun k => rfl⟩
  | cons p ps ih =>
    intro setup hkeys
    have hp := hkeys p (List.mem_cons_self p ps)
    have hset : pySet setup p.1 p.2 =
        some (setup.set (normKey setup.length p.1).toNat p.2) := by
      rw [pySet_eq, if_pos hp]
    have hlen : (setup.set (normKey setup.length p.1).toNat p.2).length =
        setup.length := by simp
    obtain ⟨r, hr, hrlen, hrget⟩ :=
      ih (setup.set (normKey setup.length p.1).toNat p.2)
        (fun q hq => by rw [hlen]; exact hkeys q (List.mem_cons_of_mem p hq))
    refine ⟨r, ?_, by rw [hrlen, hlen], ?_⟩
    · show (pySet setup p.1 p.2).bind
        (fun s => update_setup s ps) = some r
      rw [hset]
      exact hr
    · intro k
      rw [hrget k]
      have hnorm : normKey (setup.set (normKey setup.length p.1).toNat p.2).length =
          normKey setup.length := by rw [hlen]
      rw [hnorm]
      show (lastAssign (ps.map (fun q : Int × List Char => (normKey setup.length q.1, q.2))) k).elim
          ((setup.set (normKey setup.length p.1).toNat p.2).get? k) some =
        (match lastAssign (ps.map (fun q : Int × List Char => (normKey setup.length q.1, q.2))) k with
          | some v => some v
          | none => if normKey setup.length p.1 = (k : Int) then some p.2 else none).elim
          (setup.get? k) some
      cases hps : lastAssign (ps.map (fun q : Int × List Char => (normKey setup.length q.1, q.2))) k with
      | some v => rfl
      | none =>
        show (setup.set (normKey setup.length p.1).toNat p.2).get? k =
          (if normKey setup.length p.1 = (k : Int) then some p.2 else none).elim
            (setup.get? k) some
        by_cases hk : normKey setup.length p.1 = (k : Int)
        · rw [if_pos hk]
          have hke : (normKey setup.length p.1).toNat = k := by omega
          rw [hke]
          have hklt : k < setup.length := by omega
          rw [List.get?_set_eq]
          have : setup.get? k = some (setup.get ⟨k, hklt⟩) := List.get?_eq_get hklt
          rw [this]
          rfl
        · rw [if_neg hk]
          have hne : (normKey setup.length p.1).toNat ≠ k := by omega
          rw [List.get?_set_ne _ _ hne]
          rfl

/-- Helper: `hasMatch` over a cons. -/
theorem hasMatch_cons (pattern : List Char) (p : Int × List Char)
    (tl : List (Int × List Char)) (j : Nat) :
    hasMatch pattern (p :: tl) j =
      ((p.1 == (j : Int)) && containsSub pattern p.2 || hasMatch pattern tl j) := rfl

/-- Helper: `lastAssign` of a one-element list. -/
theorem lastAssign_singleton (x : Int × List Char) (k : Int) :
    lastAssign [x] k = if x.1 = k then some x.2 else none := rfl

/-- Helper: what survives at index `k` after one token's `new_lines` dict is
applied: the `TextLength` line when line `k+1` matches, the rewritten line
when line `k` matches, nothing otherwise. -/
theorem lastAssign_token (setup : List (List Char)) (pattern rep tline : List Char) :
    ∀ tl : List (Int × List Char),
      (∀ p ∈ tl, ∃ j : Nat, p.1 = (j : Int) ∧ setup.get? j = some p.2) →
      (∀ p ∈ tl, ∀ j : Nat, p.1 = (j : Int) → containsSub pattern p.2 = true → 1 ≤ j) →
      (∀ j : Nat, hasMatch pattern tl (j + 1) = true → hasMatch pattern tl j = false) →
      ∀ k : Nat,
        lastAssign ((tl.flatMap (fun p =>
            if containsSub pattern p.2 then
              [(p.1, pyReplace p.2 pattern rep), (p.1 - 1, tline)]
            else [])).map (fun q : Int × List Char => (normKey setup.length q.1, q.2))) k =
          (if hasMatch pattern tl (k + 1) then some tline
           else if hasMatch pattern tl k then
             (setup.get? k).map (fun line => pyReplace line pattern rep)
           else none) := by
  intro tl
  induction tl with
  | nil =>
    intro _ _ _ k
    simp [hasMatch, lastAssign]
  | cons p tl' ih =>
    intro hsound hpos hadj k
    have hsound' := fun q hq => hsound q (List.mem_cons_of_mem p hq)
    have hpos' := fun q hq => hpos q (List.mem_cons_of_mem p hq)
    have hadj' : ∀ j : Nat, hasMatch pattern tl' (j + 1) = true →
        hasMatch pattern tl' j = false := by
      intro j hj
      have h1 : hasMatch pattern (p :: tl') (j + 1) = true := by
        rw [hasMatch_cons, hj, Bool.or_true]
      have h2 := hadj j h1
      rw [hasMatch_cons, Bool.or_eq_false_iff] at h2
      exact h2.2
    obtain ⟨j₀, hj₀, hget₀⟩ := hsound p (List.mem_cons_self p tl')
    rw [List.flatMap_cons, List.map_append, lastAssign_append, ih hsound' hpos' hadj' k]
    by_cases hc : containsSub pattern p.2 = true
    · have hj₀pos : 1 ≤ j₀ := hpos p (List.mem_cons_self p tl') j₀ hj₀ hc
      have hnorm1 : normKey setup.length p.1 = (j₀ : Int) := by
        unfold normKey
        rw [if_neg (by omega : ¬(p.1 < 0))]
        exact hj₀
      have hnorm2 : normKey setup.length (p.1 - 1) = (j₀ : Int) - 1 := by
        unfold normKey
        rw [if_neg (by omega : ¬(p.1 - 1 < 0))]
        omega
      have hA : (if containsSub pattern p.2 then
            [(p.1, pyReplace p.2 pattern rep), (p.1 - 1, tline)]
          else ([] : List (Int × List Char))).map
            (fun q : Int × List Char => (normKey setup.length q.1, q.2)) =
          [((j₀ : Int), pyReplace p.2 pattern rep), ((j₀ : Int) - 1, tline)] := by
        rw [if_pos hc]
        simp [hnorm1, hnorm2]
      rw [hA]
      have hlaA : ∀ kk : Int, lastAssign
          [((j₀ : Int), pyReplace p.2 pattern rep), ((j₀ : Int) - 1, tline)] kk =
          (if (j₀ : Int) - 1 = kk then some tline
           else if (j₀ : Int) = kk then some (pyReplace p.2 pattern rep) else none) := by
        intro kk
        show (match lastAssign [((j₀ : Int) - 1, tline)] kk with
          | some v => some v
          | none => if (j₀ : Int) = kk then some (pyReplace p.2 pattern rep) else none) = _
        rw [lastAssign_singleton]
        by_cases h1 : (j₀ : Int) - 1 = kk
        · rw [if_pos h1, if_pos h1]
        · rw [if_neg h1, if_neg h1]
      rw [hlaA]
      rw [hasMatch_cons, hasMatch_cons, hj₀, hc, Bool.and_true, Bool.and_true]
      by_cases hb1 : hasMatch pattern tl' (k + 1) = true
      · simp [hb1]
      · rw [Bool.not_eq_true] at hb1
        by_cases hb0 : hasMatch pattern tl' k = true
        · have hnk1 : ¬((j₀ : Int) = ((k + 1 : Nat) : Int)) := by
            intro he
            have hm1 : hasMatch pattern (p :: tl') (k + 1) = true := by
              rw [hasMatch_cons, hj₀, hc, Bool.and_true]
              have hbeq : ((j₀ : Int) == ((k + 1 : Nat) : Int)) = true :=
                beq_iff_eq.mpr he
              rw [hbeq, Bool.true_or]
            have hm0 := hadj k hm1
            rw [hasMatch_cons, Bool.or_eq_false_iff] at hm0
            rw [hm0.2] at hb0
            cases hb0
          obtain ⟨q, hq, hqp⟩ := List.any_eq_true.mp hb0
          rw [Bool.and_eq_true, beq_iff_eq] at hqp
          obtain ⟨jq, hjq, hgetq⟩ := hsound' q hq
          have hjqk : jq = k := by
            have := hqp.1
            rw [hjq] at this
            omega
          rw [hjqk] at hgetq
          rw [List.get?_eq_getElem?] at hgetq
          have hne1 : ¬((j₀ : Int) - 1 = (k : Int)) := by omega
          have hne2 : ¬((j₀ : Int) = (k : Int) + 1) := by omega
          simp [hb1, hb0, hgetq, hne1, hne2]
        · rw [Bool.not_eq_true] at hb0
          by_cases he1 : (j₀ : Int) = ((k + 1 : Nat) : Int)
          · have hd1 : (j₀ : Int) - 1 = (k : Int) := by omega
            have hd2 : (j₀ : Int) = (k : Int) + 1 := by omega
            simp [hb1, hb0, hd1, hd2]
          · by_cases he0 : (j₀ : Int) = (k : Int)
            · have hj0k : j₀ = k := by omega
              rw [hj0k] at hget₀
              rw [List.get?_eq_getElem?] at hget₀
              have hd1 : ¬((j₀ : Int) - 1 = (k : Int)) := by omega
              simp [hb1, hb0, he1, he0, hd1, hget₀, hj0k]
            · have hd1 : ¬((j₀ : Int) - 1 = (k : Int)) := by omega
              have hd2 : ¬((j₀ : Int) = (k : Int) + 1) := by omega
              have hd3 : j₀ ≠ k := by omega
              simp [hb1, hb0, hd1, hd2, hd3]
    · rw [Bool.not_eq_true] at hc
      have hA : (if containsSub pattern p.2 then
            [(p.1, pyReplace p.2 pattern rep), (p.1 - 1, tline)]
          else ([] : List (Int × List Char))).map
            (fun q : Int × List Char => (normKey setup.length q.1, q.2)) = [] := by
        rw [hc]
        simp
      rw [hA]
      rw [hasMatch_cons, hasMatch_cons, hc]
      simp only [Bool.and_false, Bool.false_or]
      cases hr : (if hasMatch pattern tl' (k + 1) then some tline
           else if hasMatch pattern tl' k then
             (setup.get? k).map (fun line => pyReplace line pattern rep)
           else none) with
      | some v => rfl
      | none => rfl

/-- Helper: `hasMatch` over the snapshot coincides with `lineMatchesB`. -/
theorem hasMatch_text_lines (setup : List (List Char)) (token : List Char) (j : Nat) :
    hasMatch (ascii_convert token) (text_lines_of setup) j = lineMatchesB setup token j := by
  unfold lineMatchesB
  cases hget : setup.get? j with
  | none =>
    show (text_lines_of setup).any _ = false
    rw [List.any_eq_false]
    intro p hp
    obtain ⟨jx, hx1, hx2, _⟩ := (mem_text_lines_of setup p).mp hp
    intro hcon
    rw [Bool.and_eq_true, beq_iff_eq] at hcon
    have : jx = j := by
      have := hcon.1
      rw [hx1] at this
      omega
    rw [this, hget] at hx2
    cases hx2
  | some line =>
    show (text_lines_of setup).any _ =
      ("Text".data.isPrefixOf line && containsSub (ascii_convert token) line)
    by_cases hpre : "Text".data.isPrefixOf line = true
    · by_cases hcon : containsSub (ascii_convert token) line = true
      · rw [hpre, hcon, Bool.and_true]
        rw [List.any_eq_true]
        refine ⟨((j : Int), line), (mem_text_lines_of setup _).mpr ⟨j, rfl, hget, hpre⟩, ?_⟩
        simp [hcon]
      · rw [Bool.not_eq_true] at hcon
        rw [hcon, Bool.and_false]
        rw [List.any_eq_false]
        intro p hp
        obtain ⟨jx, hx1, hx2, _⟩ := (mem_text_lines_of setup p).mp hp
        intro hc
        rw [Bool.and_eq_true, beq_iff_eq] at hc
        have hjx : jx = j := by
          have := hc.1
          rw [hx1] at this
          omega
        rw [hjx, hget] at hx2
        cases hx2
        rw [hc.2] at hcon
        cases hcon
    · rw [Bool.not_eq_true] at hpre
      rw [hpre, Bool.false_and]
      rw [List.any_eq_false]
      intro p hp
      obtain ⟨jx, hx1, hx2, hx3⟩ := (mem_text_lines_of setup p).mp hp
      intro hc
      rw [Bool.and_eq_true, beq_iff_eq] at hc
      have hjx : jx = j := by
        have := hc.1
        rw [hx1] at this
        omega
      rw [hjx, hget] at hx2
      cases hx2
      rw [hx3] at hpre
      cases hpre

/-- Helper: folding the remaining tokens over a setup that already reflects
the processed prefix yields the full `expectedFinal` description. -/
theorem generate_slate_fold_inv (slate_setup : List (List Char))
    (slate_info : List (List Char × List Char))
    (hzero : ∀ p ∈ slate_info, lineMatchesB slate_setup p.1 0 = false)
    (huniq : ∀ p ∈ slate_info, ∀ q ∈ slate_info, ∀ i : Nat,
      lineMatchesB slate_setup p.1 i = true → lineMatchesB slate_setup q.1 i = true →
      p = q)
    (hadj : ∀ p ∈ slate_info, ∀ q ∈ slate_info, ∀ i : Nat,
      lineMatchesB slate_setup p.1 (i + 1) = true →
      lineMatchesB slate_setup q.1 i = false) :
    ∀ (info₂ info₁ : List (List Char × List Char)) (cur : List (List Char)),
      info₁ ++ info₂ = slate_info →
      cur.length = slate_setup.length →
      (∀ k : Nat, cur.get? k = expectedFinal slate_setup info₁ k) →
      ∃ final,
        info₂.foldlM (fun setup tv =>
          update_setup setup (replace_token tv.1 tv.2 (text_lines_of slate_setup)))
          cur = some final ∧
        final.length = slate_setup.length ∧
        ∀ k : Nat, final.get? k = expectedFinal slate_setup slate_info k := by
  intro info₂
  induction info₂ with
  | nil =>
    intro info₁ cur hsplit hlen hinv
    rw [List.append_nil] at hsplit
    refine ⟨cur, rfl, hlen, ?_⟩
    rw [← hsplit]
    exact hinv
  | cons tv info₂' ih =>
    intro info₁ cur hsplit hlen hinv
    obtain ⟨t, v⟩ := tv
    have hmem : (t, v) ∈ slate_info := by
      rw [← hsplit]
      exact List.mem_append_right _ (List.mem_cons_self _ _)
    have hsound : ∀ p ∈ text_lines_of slate_setup,
        ∃ j : Nat, p.1 = (j : Int) ∧ slate_setup.get? j = some p.2 := by
      intro p hp
      obtain ⟨j, h1, h2, _⟩ := (mem_text_lines_of slate_setup p).mp hp
      exact ⟨j, h1, h2⟩
    have hmatchB : ∀ p ∈ text_lines_of slate_setup, ∀ j : Nat, p.1 = (j : Int) →
        containsSub (ascii_convert t) p.2 = true →
        lineMatchesB slate_setup t j = true := by
      intro p hp j hj hc
      obtain ⟨j', h1, h2, h3⟩ := (mem_text_lines_of slate_setup p).mp hp
      have hjj : j' = j := by
        rw [h1] at hj
        omega
      rw [hjj] at h2
      unfold lineMatchesB
      rw [h2]
      show ("Text".data.isPrefixOf p.2 && containsSub (ascii_convert t) p.2) = true
      rw [h3, hc]
      rfl
    have hpos : ∀ p ∈ text_lines_of slate_setup, ∀ j : Nat, p.1 = (j : Int) →
        containsSub (ascii_convert t) p.2 = true → 1 ≤ j := by
      intro p hp j hj hc
      by_cases hj0 : j = 0
      · exfalso
        have := hmatchB p hp j hj hc
        rw [hj0] at this
        rw [hzero (t, v) hmem] at this
        cases this
      · omega
    have hadjtok : ∀ j : Nat,
        hasMatch (ascii_convert t) (text_lines_of slate_setup) (j + 1) = true →
        hasMatch (ascii_convert t) (text_lines_of slate_setup) j = false := by
      intro j hj
      rw [hasMatch_text_lines] at hj ⊢
      exact hadj (t, v) hmem (t, v) hmem j hj
    have hkeys : ∀ p ∈ replace_token t v (text_lines_of slate_setup),
        0 ≤ normKey cur.length p.1 ∧ normKey cur.length p.1 < cur.length := by
      rw [replace_token_eq_flatMap]
      intro p hp
      rw [List.mem_flatMap] at hp
      obtain ⟨e, he, hpe⟩ := hp
      obtain ⟨j, he1, he2, _⟩ := (mem_text_lines_of slate_setup e).mp he
      by_cases hc : containsSub (ascii_convert t) e.2 = true
      · rw [if_pos hc] at hpe
        have hj1 : 1 ≤ j := hpos e he j he1 hc
        have hjlt : j < slate_setup.length := by
          rcases List.get?_eq_some.mp he2 with ⟨hlt, _⟩
          exact hlt
        simp only [List.mem_cons, List.not_mem_nil, or_false] at hpe
        rcases hpe with hp1 | hp1 <;> rw [hp1] <;> unfold normKey <;> rw [hlen]
        · rw [he1]
          rw [if_neg (by omega)]
          constructor <;> omega
        · rw [he1]
          rw [if_neg (by omega)]
          constructor <;> omega
      · rw [if_neg hc] at hpe
        cases hpe
    obtain ⟨r, hr, hrlen, hrget⟩ :=
      update_setup_char (replace_token t v (text_lines_of slate_setup)) cur hkeys
    have htok := lastAssign_token slate_setup (ascii_convert t)
      (ascii_convert (pyValue v)) (textLengthLine (pyValue v).length)
      (text_lines_of slate_setup) hsound hpos hadjtok
    have hstep : ∀ k : Nat, r.get? k =
        expectedFinal slate_setup (info₁ ++ [(t, v)]) k := by
      intro k
      have hrg := hrget k
      rw [replace_token_eq_flatMap] at hrg
      rw [hlen] at hrg
      rw [htok k] at hrg
      rw [hasMatch_text_lines, hasMatch_text_lines] at hrg
      unfold expectedFinal
      rw [List.find?_append, List.find?_append]
      by_cases hm1 : lineMatchesB slate_setup t (k + 1) = true
      · rw [if_pos hm1] at hrg
        have hfind2 : [(t, v)].find?
            (fun p => lineMatchesB slate_setup p.1 (k + 1)) = some (t, v) :=
          List.find?_cons_of_pos _ hm1
        cases hfa : info₁.find? (fun p => lineMatchesB slate_setup p.1 (k + 1)) with
        | some q =>
          have hqpred := List.find?_some hfa
          have hq : q = (t, v) := by
            have hqm : q ∈ slate_info := by
              rw [← hsplit]
              exact List.mem_append_left _ (List.mem_of_find?_eq_some hfa)
            exact huniq q hqm (t, v) hmem (k + 1) hqpred hm1
          rw [Option.or_some, hrg, hq]
          rfl
        | none =>
          rw [hfind2, Option.none_or, hrg]
          rfl
      · rw [Bool.not_eq_true] at hm1
        rw [hm1] at hrg
        simp only [Bool.false_eq_true, if_false] at hrg
        have hfind2 : [(t, v)].find?
            (fun p => lineMatchesB slate_setup p.1 (k + 1)) = none := by
          rw [List.find?_cons_of_neg]
          · rfl
          · rw [hm1]
            simp
        rw [hfind2, Option.or_none]
        by_cases hm0 : lineMatchesB slate_setup t k = true
        · rw [if_pos hm0] at hrg
          have hfind1 : info₁.find?
              (fun p => lineMatchesB slate_setup p.1 (k + 1)) = none := by
            rw [List.find?_eq_none]
            intro q hq hqpred
            have hqm : q ∈ slate_info := by
              rw [← hsplit]
              exact List.mem_append_left _ hq
            have := hadj q hqm (t, v) hmem k hqpred
            rw [this] at hm0
            cases hm0
          rw [hfind1]
          have hfind2' : [(t, v)].find?
              (fun p => lineMatchesB slate_setup p.1 k) = some (t, v) :=
            List.find?_cons_of_pos _ hm0
          cases hfb : info₁.find? (fun p => lineMatchesB slate_setup p.1 k) with
          | some q =>
            have hqpred := List.find?_some hfb
            have hq : q = (t, v) := by
              have hqm : q ∈ slate_info := by
                rw [← hsplit]
                exact List.mem_append_left _ (List.mem_of_find?_eq_some hfb)
              exact huniq q hqm (t, v) hmem k hqpred hm0
            rw [Option.or_some, hrg, hq]
            cases hgk : slate_setup.get? k with
            | none =>
              exfalso
              unfold lineMatchesB at hm0
              rw [hgk] at hm0
              cases hm0
            | some line => rfl
          | none =>
            rw [hfind2', Option.none_or, hrg]
            cases hgk : slate_setup.get? k with
            | none =>
              exfalso
              unfold lineMatchesB at hm0
              rw [hgk] at hm0
              cases hm0
            | some line => rfl
        · rw [Bool.not_eq_true] at hm0
          rw [hm0] at hrg
          simp only [Bool.false_eq_true, if_false] at hrg
          have hfind2' : [(t, v)].find?
              (fun p => lineMatchesB slate_setup p.1 k) = none := by
            rw [List.find?_cons_of_neg]
            · rfl
            · rw [hm0]
              simp
          rw [hfind2', Option.or_none]
          have hcur := hinv k
          unfold expectedFinal at hcur
          rw [hrg]
          exact hcur
    have hsplit' : (info₁ ++ [(t, v)]) ++ info₂' = slate_info := by
      rw [List.append_assoc]
      exact hsplit
    obtain ⟨final, hf, hflen, hfget⟩ :=
      ih (info₁ ++ [(t, v)]) r hsplit' (by rw [hrlen, hlen]) hstep
    refine ⟨final, ?_, hflen, hfget⟩
    rw [List.foldlM_cons]
    show (update_setup cur (replace_token t v (text_lines_of slate_setup))).bind _ =
      some final
    rw [hr]
    exact hf

/-- **C2 (amended).** Token substitution in `generate_slate` is plain string
search-and-replace over the code-point encoding of the template snapshot:
provided every value in the slate-info dict is nonempty, no `'Text'` line
matches two different tokens, line 0 matches no token, and no two matched
lines are adjacent, the rewrite succeeds and, line by line: a matched
`'Text'` line has the token's code-point pattern replaced by the value's
code-point encoding, the line immediately preceding a matched line becomes
`TextLength {len(value)}`, and every other line is unchanged. -/
theorem generate_slate_setup_substitution (slate_setup : List (List Char))
    (slate_info : List (List Char × List Char))
    (hvals : ∀ p ∈ slate_info, p.2 ≠ [])
    (hzero : ∀ p ∈ slate_info, lineMatchesB slate_setup p.1 0 = false)
    (huniq : ∀ p ∈ slate_info, ∀ q ∈ slate_info, ∀ i : Nat,
      lineMatchesB slate_setup p.1 i = true → lineMatchesB slate_setup q.1 i = true →
      p = q)
    (hadj : ∀ p ∈ slate_info, ∀ q ∈ slate_info, ∀ i : Nat,
      lineMatchesB slate_setup p.1 (i + 1) = true →
      lineMatchesB slate_setup q.1 i = false) :
    ∃ final, generate_slate_setup slate_setup slate_info = some final ∧
      final.length = slate_setup.length ∧
      ∀ (i : Nat) (line : List Char), slate_setup.get? i = some line →
        (∀ p ∈ slate_info, lineMatchesB slate_setup p.1 i = true →
          final.get? i = some (pyReplace line (ascii_convert p.1) (ascii_convert p.2))) ∧
        (∀ p ∈ slate_info, lineMatchesB slate_setup p.1 (i + 1) = true →
          final.get? i = some (textLengthLine p.2.length)) ∧
        ((∀ p ∈ slate_info, lineMatchesB slate_setup p.1 i = false ∧
            lineMatchesB slate_setup p.1 (i + 1) = false) →
          final.get? i = some line) := by
  obtain ⟨final, hf, hflen, hfget⟩ :=
    generate_slate_fold_inv slate_setup slate_info hzero huniq hadj slate_info []
      slate_setup rfl rfl (fun k => rfl)
  refine ⟨final, hf, hflen, ?_⟩
  intro i line hline
  refine ⟨?_, ?_, ?_⟩
  · intro p hp hmi
    rw [hfget i]
    unfold expectedFinal
    have hf1 : slate_info.find? (fun q => lineMatchesB slate_setup q.1 (i + 1)) =
        none := by
      rw [List.find?_eq_none]
      intro q hq hqpred
      have := hadj q hq p hp i hqpred
      rw [this] at hmi
      cases hmi
    rw [hf1]
    cases hf0 : slate_info.find? (fun q => lineMatchesB slate_setup q.1 i) with
    | none =>
      exfalso
      have := List.find?_eq_none.mp hf0 p hp
      exact this hmi
    | some q =>
      have hqpred := List.find?_some hf0
      have hq : q = p :=
        huniq q (List.mem_of_find?_eq_some hf0) p hp i hqpred hmi
      rw [hq, hline]
      have hv : pyValue p.2 = p.2 := by
        unfold pyValue
        rw [if_neg (hvals p hp)]
      show Option.map
          (fun l => pyReplace l (ascii_convert p.1) (ascii_convert (pyValue p.2)))
          (some line) =
        some (pyReplace line (ascii_convert p.1) (ascii_convert p.2))
      rw [hv]
      rfl
  · intro p hp hmi1
    rw [hfget i]
    unfold expectedFinal
    cases hf1 : slate_info.find? (fun q => lineMatchesB slate_setup q.1 (i + 1)) with
    | none =>
      exfalso
      exact List.find?_eq_none.mp hf1 p hp hmi1
    | some q =>
      have hqpred := List.find?_some hf1
      have hq : q = p :=
        huniq q (List.mem_of_find?_eq_some hf1) p hp (i + 1) hqpred hmi1
      rw [hq]
      have hv : pyValue p.2 = p.2 := by
        unfold pyValue
        rw [if_neg (hvals p hp)]
      show some (textLengthLine (pyValue p.2).length) = some (textLengthLine p.2.length)
      rw [hv]
  · intro hnone
    rw [hfget i]
    unfold expectedFinal
    have hf1 : slate_info.find? (fun q => lineMatchesB slate_setup q.1 (i + 1)) =
        none := by
      rw [List.find?_eq_none]
      intro q hq hqpred
      rw [(hnone q hq).2] at hqpred
      cases hqpred
    have hf0 : slate_info.find? (fun q => lineMatchesB slate_setup q.1 i) = none := by
      rw [List.find?_eq_none]
      intro q hq hqpred
      rw [(hnone q hq).1] at hqpred
      cases hqpred
    rw [hf1, hf0]
    exact hline

/-- **C2 counterexample.** With the empty value for token `<A>` on the
template `["TextLength 3\n", "Text 60 65 62\n"]`, the code substitutes a
single space: the matched line becomes `"Text 32\n"` — not the pattern
replaced by the code points of the (empty) value — and the preceding line
becomes `"TextLength 1\n"` instead of `TextLength 0`. -/
theorem generate_slate_setup_empty_value_counterexample :
    generate_slate_setup ["TextLength 3\n".data, "Text 60 65 62\n".data]
        [("<A>".data, [])] =
      some ["TextLength 1\n".data, "Text 32\n".data] ∧
    "Text".data.isPrefixOf "Text 60 65 62\n".data = true ∧
    containsSub (ascii_convert "<A>".data) "Text 60 65 62\n".data = true ∧
    textLengthLine (List.length ([] : List Char)) ≠ "TextLength 1\n".data ∧
    pyReplace "Text 60 65 62\n".data (ascii_convert "<A>".data) (ascii_convert []) ≠
      "Text 32\n".data := by
  refine ⟨by decide, by decide, by decide, by decide, by decide⟩

/-- **C2 witness.** The amended claim at a concrete template and dict. -/
theorem generate_slate_setup_substitution_witness :
    ∃ final,
      generate_slate_setup ["TextLength 3\n".data, "Text 60 65 62\n".data]
          [("<A>".data, "hi".data)] = some final ∧
      final.length =
        (["TextLength 3\n".data, "Text 60 65 62\n".data] : List (List Char)).length ∧
      ∀ (i : Nat) (line : List Char),
        (["TextLength 3\n".data, "Text 60 65 62\n".data] : List (List Char)).get? i =
          some line →
        (∀ p ∈ [("<A>".data, "hi".data)],
          lineMatchesB ["TextLength 3\n".data, "Text 60 65 62\n".data] p.1 i = true →
          final.get? i = some (pyReplace line (ascii_convert p.1) (ascii_convert p.2))) ∧
        (∀ p ∈ [("<A>".data, "hi".data)],
          lineMatchesB ["TextLength 3\n".data, "Text 60 65 62\n".data] p.1 (i + 1) =
            true →
          final.get? i = some (textLengthLine p.2.length)) ∧
        ((∀ p ∈ [("<A>".data, "hi".data)],
          lineMatchesB ["TextLength 3\n".data, "Text 60 65 62\n".data] p.1 i = false ∧
          lineMatchesB ["TextLength 3\n".data, "Text 60 65 62\n".data] p.1 (i + 1) =
            false) →
          final.get? i = some line) :=
  generate_slate_setup_substitution
    ["TextLength 3\n".data, "Text 60 65 62\n".data]
    [("<A>".data, "hi".data)]
    (by
      intro p hp
      simp only [List.mem_singleton] at hp
      subst hp
      decide)
    (by
      intro p hp
      simp only [List.mem_singleton] at hp
      subst hp
      decide)
    (by
      intro p hp q hq i h1 h2
      simp only [List.mem_singleton] at hp hq
      rw [hp, hq])
    (by
      intro p hp q hq i h1
      simp only [List.mem_singleton] at hp hq
      subst hp
      subst hq
      match i with
      | 0 => decide
      | n + 1 =>
        exfalso
        unfold lineMatchesB at h1
        rw [List.get?_eq_none.mpr (by simp)] at h1
        cases h1)

/-- Helper: a dict assignment makes the key readable. -/
theorem dictGet_dictSet_self {α β : Type} [DecidableEq α] (m : List (α × β))
    (k : α) (v : β) : dictGet (dictSet m k v) k = some v := by
  unfold dictSet
  by_cases hany : m.any (fun p => p.1 = k) = true
  · rw [if_pos hany]
    unfold dictGet
    induction m with
    | nil => cases hany
    | cons p m' ih =>
      rw [List.map_cons]
      by_cases hpk : p.1 = k
      · rw [if_pos hpk]
        rw [List.find?_cons_of_pos _ (by simp)]
        rfl
      · rw [if_neg hpk]
        rw [List.find?_cons_of_neg _ (by simp [hpk])]
        apply ih
        have := List.any_eq_true.mp hany
        obtain ⟨q, hq, hqk⟩ := this
        rcases List.mem_cons.mp hq with h | h
        · exfalso
          rw [h] at hqk
          simp only [decide_eq_true_eq] at hqk
          exact hpk hqk
        · apply List.any_eq_true.mpr
          exact ⟨q, h, hqk⟩
  · rw [if_neg hany]
    unfold dictGet
    rw [List.find?_append]
    have h1 : m.find? (fun p => p.1 = k) = none := by
      rw [List.find?_eq_none]
      intro q hq hqk
      rw [Bool.not_eq_true] at hany
      have hx : m.any (fun p => p.1 = k) = true := by
        apply List.any_eq_true.mpr
        exact ⟨q, hq, hqk⟩
      rw [hany] at hx
      cases hx
    rw [h1, Option.none_or, List.find?_cons_of_pos _ (by simp)]
    rfl

/-- Helper: a dict assignment leaves other keys untouched. -/
theorem dictGet_dictSet_ne {α β : Type} [DecidableEq α] (m : List (α × β))
    (k k' : α) (v : β) (hne : k' ≠ k) :
    dictGet (dictSet m k v) k' = dictGet m k' := by
  unfold dictSet
  by_cases hany : m.any (fun p => p.1 = k) = true
  · rw [if_pos hany]
    unfold dictGet
    clear hany
    induction m with
    | nil => rfl
    | cons p m' ih =>
      rw [List.map_cons]
      by_cases hpk : p.1 = k
      · rw [if_pos hpk]
        rw [List.find?_cons_of_neg _ (by simp [Ne.symm hne]),
          List.find?_cons_of_neg _ (by simp [hpk, Ne.symm hne])]
        exact ih
      · rw [if_neg hpk]
        by_cases hpk' : p.1 = k'
        · rw [List.find?_cons_of_pos _ (by simp [hpk']),
            List.find?_cons_of_pos _ (by simp [hpk'])]
        · rw [List.find?_cons_of_neg _ (by simp [hpk']),
            List.find?_cons_of_neg _ (by simp [hpk'])]
          exact ih
  · rw [if_neg hany]
    unfold dictGet
    rw [List.find?_append]
    rw [List.find?_cons_of_neg _ (by simp [Ne.symm hne])]
    have h0 : (([] : List (α × β)).find? (fun p => p.1 = k')) = none := rfl
    rw [h0, Option.or_none]

/-- Helper: the keys written by `replace_token` are always Python-valid for
the template they came from. -/
theorem replace_token_keys (slate_setup : List (List Char)) (t v : List Char) :
    ∀ p ∈ replace_token t v (text_lines_of slate_setup),
      0 ≤ normKey slate_setup.length p.1 ∧
      normKey slate_setup.length p.1 < slate_setup.length := by
  rw [replace_token_eq_flatMap]
  intro p hp
  rw [List.mem_flatMap] at hp
  obtain ⟨e, he, hpe⟩ := hp
  obtain ⟨j, he1, he2, _⟩ := (mem_text_lines_of slate_setup e).mp he
  have hjlt : j < slate_setup.length := by
    rcases List.get?_eq_some.mp he2 with ⟨hlt, _⟩
    exact hlt
  by_cases hc : containsSub (ascii_convert t) e.2 = true
  · rw [if_pos hc] at hpe
    simp only [List.mem_cons, List.not_mem_nil, or_false] at hpe
    rcases hpe with hp1 | hp1 <;> rw [hp1] <;> unfold normKey
    · rw [he1]
      rw [if_neg (by omega)]
      constructor <;> omega
    · rw [he1]
      by_cases hj0 : j = 0
      · rw [hj0]
        rw [if_pos (by omega)]
        constructor <;> omega
      · rw [if_neg (by omega)]
        constructor <;> omega
  · rw [if_neg hc] at hpe
    cases hpe

/-- Helper: the template rewrite of `generate_slate` never raises: every
index written is in range (a match on line 0 writes the last line via Python
index `-1`). -/
theorem generate_slate_setup_total (slate_setup : List (List Char)) :
    ∀ (slate_info : List (List Char × List Char)) (cur : List (List Char)),
      cur.length = slate_setup.length →
      ∃ r, slate_info.foldlM (fun setup tv =>
          update_setup setup (replace_token tv.1 tv.2 (text_lines_of slate_setup)))
          cur = some r ∧ r.length = slate_setup.length := by
  intro slate_info
  induction slate_info with
  | nil =>
    intro cur hlen
    exact ⟨cur, rfl, hlen⟩
  | cons tv info' ih =>
    intro cur hlen
    have hkeys : ∀ p ∈ replace_token tv.1 tv.2 (text_lines_of slate_setup),
        0 ≤ normKey cur.length p.1 ∧ normKey cur.length p.1 < cur.length := by
      rw [hlen]
      exact replace_token_keys slate_setup tv.1 tv.2
    obtain ⟨r, hr, hrlen, _⟩ :=
      update_setup_char (replace_token tv.1 tv.2 (text_lines_of slate_setup)) cur hkeys
    obtain ⟨r', hr', hrlen'⟩ := ih r (by rw [hrlen, hlen])
    refine ⟨r', ?_, hrlen'⟩
    rw [List.foldlM_cons]
    show (update_setup cur (replace_token tv.1 tv.2 (text_lines_of slate_setup))).bind
      _ = some r'
    rw [hr]
    exact hr'

/-- Helper: `generate_slate` on a master sequence: a `Text` effect loaded
with the rewritten template is appended to `tracks[0].segments[0]`. -/
theorem generate_slate_m_spec (env : BuildEnv) (seq : SeqM)
    (info : List (List Char × List Char)) (code res : List Char)
    (hres : dictGet info "<RESOLUTION>".data = some res)
    (hcode : dictGet info "<CODE>".data = some code) :
    generate_slate_m env seq info =
      some (modifySegEffects seq 0 0 (fun effs =>
        effs ++ [{ effectType := "Text"
                   setupPath := some (TEMP_FOLDER ++ "/" ++ String.mk code ++ "-" ++
                     String.mk res ++ ".ttg")
                   setupContent := generate_slate_setup (env.template (String.mk res))
                     info }])) := by
  obtain ⟨r, hr, _⟩ :=
    generate_slate_setup_total (env.template (String.mk res)) info
      (env.template (String.mk res)) rfl
  have hgss : generate_slate_setup (env.template (String.mk res)) info = some r := hr
  unfold generate_slate_m
  rw [hres]
  show (generate_slate_setup (env.template (String.mk res)) info).bind _ = _
  rw [hgss]
  show (dictGet info "<CODE>".data).bind _ = _
  rw [hcode]
  rw [← hgss]
  rfl

/-- Helper: `get_slate_info` succeeds whenever the version name has at least
two `'_'`-separated components, and its dict maps `<CODE>` to the shot
name. -/
theorem pyIdx_neg {α : Type} (l : List α) (i : Int) (h1 : i < 0)
    (h2 : 0 ≤ i + l.length) : pyIdx l i = l.get? (i + l.length).toNat := by
  show (if 0 ≤ (if i < 0 then i + (l.length : Int) else i) ∧
      (if i < 0 then i + (l.length : Int) else i) < l.length then
        l.get? (if i < 0 then i + (l.length : Int) else i).toNat
      else none) = l.get? (i + l.length).toNat
  rw [if_pos h1]
  rw [if_pos ⟨h2, by omega⟩]

/-- Helper: `get_slate_info` succeeds whenever the version name has at least
two `'_'`-separated components, and its dict maps `<CODE>` to the shot
name. -/
theorem get_slate_info_some (env : BuildEnv) (shot : SegmentInfo)
    (hname : 2 ≤ (splitSep '_' shot.name.data).length) :
    ∃ info0, get_slate_info env shot = some info0 ∧
      dictGet info0 "<CODE>".data = some shot.shotName.data := by
  have h2 : ∃ a, pyIdx (splitSep '_' shot.name.data) (-2) = some a := by
    rw [pyIdx_neg _ _ (by omega) (by omega)]
    cases hg : (splitSep '_' shot.name.data).get?
        ((-2 + ((splitSep '_' shot.name.data).length : Int)).toNat) with
    | none =>
      exfalso
      have := List.get?_eq_none.mp hg
      omega
    | some a => exact ⟨a, rfl⟩
  have h1 : ∃ a, pyIdx (splitSep '_' shot.name.data) (-1) = some a := by
    rw [pyIdx_neg _ _ (by omega) (by omega)]
    cases hg : (splitSep '_' shot.name.data).get?
        ((-1 + ((splitSep '_' shot.name.data).length : Int)).toNat) with
    | none =>
      exfalso
      have := List.get?_eq_none.mp hg
      omega
    | some a => exact ⟨a, rfl⟩
  obtain ⟨t2, ht2⟩ := h2
  obtain ⟨t1, ht1⟩ := h1
  refine ⟨[("<CODE>".data, shot.shotName.data),
           ("<DESCRIPTION>".data, (env.shotDescription shot.shotName).data),
           ("<TYPE>".data, t2),
           ("<VERSION>".data, t1),
           ("<CURRENT_DATE>".data, env.todayStr.data),
           ("<ARTIST>".data, (env.versionUser shot.name).data),
           ("<DURATION>".data, (toString shot.sourceDuration).data ++ " frames".data),
           ("<HANDLES>".data, (toString shot.head).data ++ " frames".data),
           ("<FILE_NAME>".data, (shot.name ++ ".mov").data),
           ("<NOTES>".data, (env.versionDescription shot.name).data)], ?_, ?_⟩
  · show (pyIdx (splitSep '_' shot.name.data) (-2)).bind _ = _
    rw [ht2]
    show (pyIdx (splitSep '_' shot.name.data) (-1)).bind _ = _
    rw [ht1]
    rfl
  · unfold dictGet
    rw [List.find?_cons_of_pos _ (by simp)]
    rfl

/-- Helper: the cached slate-background lookup returns the imported
background for that resolution. -/
theorem bg_lookup (env : BuildEnv) (R : List String) (res : String)
    (clips : List ClipM)
    (hres : res ∈ R)
    (hinv1 : ∀ c ∈ clips, ∀ r ∈ R, strEndsWith c.name r = true →
      c = env.importClip (bgPathFor r))
    (hmem : env.importClip (bgPathFor res) ∈ clips)
    (himp : strEndsWith (env.importClip (bgPathFor res)).name res = true) :
    (clips.filter (fun c => strEndsWith c.name res)).get? 0 =
      some (env.importClip (bgPathFor res)) := by
  have hall : ∀ c ∈ clips.filter (fun c => strEndsWith c.name res),
      c = env.importClip (bgPathFor res) := by
    intro c hc
    rw [List.mem_filter] at hc
    exact hinv1 c hc.1 res hres hc.2
  have hne : clips.filter (fun c => strEndsWith c.name res) ≠ [] := by
    intro hnil
    have hm : env.importClip (bgPathFor res) ∈
        clips.filter (fun c => strEndsWith c.name res) := by
      rw [List.mem_filter]
      exact ⟨hmem, himp⟩
    rw [hnil] at hm
    cases hm
  cases hf : clips.filter (fun c => strEndsWith c.name res) with
  | nil => exact absurd hf hne
  | cons x xs =>
    have hx : x = env.importClip (bgPathFor res) := by
      apply hall
      rw [hf]
      exact List.mem_cons_self x xs
    show some x = some (env.importClip (bgPathFor res))
    rw [hx]

/-- Helper: `insert_slate_frame` on a one-track master whose single segment
starts after record time 0: the background becomes the first segment of
track 1 and the thumbnail the only segment of a new track 2, carrying the
`Action` effect. -/
theorem insert_slate_frame_shape (seq0 : SeqM) (shot : SegmentInfo)
    (bg thumb : ClipM) (content : TLSeg)
    (htracks : seq0.tracks = [⟨[content]⟩])
    (hstart : 0 < content.recordTime) :
    insert_slate_frame seq0 shot bg thumb =
      { seq0 with tracks :=
        [⟨[⟨bg, 0, []⟩, content]⟩,
         ⟨[⟨thumb, 1 - shot.head, [thumbnail_action_effect]⟩]⟩] } := by
  have hins : insertByTime ⟨bg, 0, []⟩ [content] = [⟨bg, 0, []⟩, content] := by
    show (if (⟨bg, 0, []⟩ : TLSeg).recordTime < content.recordTime then
        ⟨bg, 0, []⟩ :: content :: [] else content :: insertByTime ⟨bg, 0, []⟩ []) = _
    rw [if_pos hstart]
  have h1 : overwriteClip seq0 bg 0 0 = { seq0 with tracks := [⟨[⟨bg, 0, []⟩, content]⟩] } := by
    unfold overwriteClip
    rw [htracks]
    show { seq0 with tracks := [TrackM.mk (insertByTime ⟨bg, 0, []⟩ [content])] } = _
    rw [hins]
  unfold insert_slate_frame
  rw [h1]
  rfl

/-- Helper: `process_shot` unfolded into its bind chain, with the online
resolution folded as `resOf`. -/
theorem process_shot_eq (env : BuildEnv) (offline_bg : ClipM) (st : BuildState)
    (shot : SegmentInfo) :
    process_shot env offline_bg st shot =
    (if resOf env shot ∈ st.resolutions then
        ((st.tempClips ++ [(create_offline_sequence env shot).1]).filter
          (fun c => strEndsWith c.name (resOf env shot))).get? 0
      else some (env.importClip (bgPathFor (resOf env shot)))).bind (fun online_bg =>
    (get_slate_info env shot).bind (fun slate_info0 =>
    (generate_slate_m env
        (insert_slate_frame (openAsSequence (env.matchSeg shot false)) shot online_bg
          (extract_thumbnail env shot false))
        (dictSet (dictSet (dictSet slate_info0 "<PROJECT>".data env.projectName.data)
          "<RESOLUTION>".data (resOf env shot).data)
          "<COLOR_SPACE>".data (env.matchSeg shot false).colourSpace.data)).bind
      (fun online2 =>
    (generate_slate_m env
        (insert_slate_frame (create_offline_sequence env shot).2 shot offline_bg
          (extract_thumbnail env shot true))
        (dictSet (dictSet (dictSet (dictSet (dictSet slate_info0
          "<PROJECT>".data env.projectName.data)
          "<RESOLUTION>".data (resOf env shot).data)
          "<COLOR_SPACE>".data (env.matchSeg shot false).colourSpace.data)
          "<RESOLUTION>".data "1920x1080".data)
          "<COLOR_SPACE>".data "Rec.709".data)).bind (fun offline2 =>
    some { tempClips := (if resOf env shot ∈ st.resolutions then
                st.tempClips ++ [(create_offline_sequence env shot).1]
              else (st.tempClips ++ [(create_offline_sequence env shot).1]) ++ [online_bg]) ++
                [extract_thumbnail env shot false, extract_thumbnail env shot true],
           resolutions := if resOf env shot ∈ st.resolutions then st.resolutions
              else st.resolutions ++ [resOf env shot],
           shotNames := dictSet st.shotNames shot.name shot.shotName,
           onlineSeqs := st.onlineSeqs ++ [online2],
           offlineSeqs := st.offlineSeqs ++ [offline2] })))) := by rfl

/-- Helper: one iteration of the per-shot loop succeeds and appends exactly
the predicted online and offline slated masters, preserving the temp-reel
invariants. -/
theorem process_shot_spec (env : BuildEnv) (offline_bg : ClipM) (R : List String)
    (st : BuildState) (shot : SegmentInfo)
    (himp : ∀ r ∈ R, strEndsWith (env.importClip (bgPathFor r)).name r = true)
    (himp2 : ∀ r ∈ R, ∀ r' ∈ R, r ≠ r' →
      strEndsWith (env.importClip (bgPathFor r')).name r = false)
    (hmatch : ∀ fx : Bool, ∀ r ∈ R, strEndsWith (env.matchSeg shot fx).name r = false)
    (hstart : ∀ fx : Bool, 0 < (env.matchSeg shot fx).startTime)
    (hshotres : resOf env shot ∈ R)
    (hname : 2 ≤ (splitSep '_' shot.name.data).length)
    (hinv1 : ∀ c ∈ st.tempClips, ∀ r ∈ R, strEndsWith c.name r = true →
      c = env.importClip (bgPathFor r))
    (hinv2 : ∀ r ∈ st.resolutions, r ∈ R ∧
      env.importClip (bgPathFor r) ∈ st.tempClips) :
    ∃ st', process_shot env offline_bg st shot = some st' ∧
      st'.onlineSeqs = st.onlineSeqs ++ [online_master_final env shot] ∧
      st'.offlineSeqs = st.offlineSeqs ++ [offline_master_final env offline_bg shot] ∧
      st'.shotNames = dictSet st.shotNames shot.name shot.shotName ∧
      (∀ c ∈ st'.tempClips, ∀ r ∈ R, strEndsWith c.name r = true →
        c = env.importClip (bgPathFor r)) ∧
      (∀ r ∈ st'.resolutions, r ∈ R ∧
        env.importClip (bgPathFor r) ∈ st'.tempClips) := by
  obtain ⟨info0, hinfo0, hcode0⟩ := get_slate_info_some env shot hname
  have hgetd : (get_slate_info env shot).getD [] = info0 := by rw [hinfo0]; rfl
  have hmc : (create_offline_sequence env shot).1 = env.matchSeg shot true := rfl
  have hresO : dictGet (online_slate_info env shot) "<RESOLUTION>".data =
      some (resOf env shot).data := by
    unfold online_slate_info
    rw [dictGet_dictSet_ne _ _ _ _ (by decide), dictGet_dictSet_self]
  have hcodeO : dictGet (online_slate_info env shot) "<CODE>".data =
      some shot.shotName.data := by
    unfold online_slate_info
    rw [dictGet_dictSet_ne _ _ _ _ (by decide), dictGet_dictSet_ne _ _ _ _ (by decide),
      dictGet_dictSet_ne _ _ _ _ (by decide), hgetd]
    exact hcode0
  have hresF : dictGet (offline_slate_info env shot) "<RESOLUTION>".data =
      some "1920x1080".data := by
    unfold offline_slate_info
    rw [dictGet_dictSet_ne _ _ _ _ (by decide), dictGet_dictSet_self]
  have hcodeF : dictGet (offline_slate_info env shot) "<CODE>".data =
      some shot.shotName.data := by
    unfold offline_slate_info
    rw [dictGet_dictSet_ne _ _ _ _ (by decide), dictGet_dictSet_ne _ _ _ _ (by decide)]
    exact hcodeO
  have honline1 : insert_slate_frame (openAsSequence (env.matchSeg shot false)) shot
      (env.importClip (bgPathFor (resOf env shot))) (extract_thumbnail env shot false) =
      { openAsSequence (env.matchSeg shot false) with tracks :=
        [⟨[⟨env.importClip (bgPathFor (resOf env shot)), 0, []⟩,
           ⟨env.matchSeg shot false, (env.matchSeg shot false).startTime, []⟩]⟩,
         ⟨[⟨extract_thumbnail env shot false, 1 - shot.head,
            [thumbnail_action_effect]⟩]⟩] } :=
    insert_slate_frame_shape _ shot _ _
      ⟨env.matchSeg shot false, (env.matchSeg shot false).startTime, []⟩ rfl (hstart false)
  have hoffline1 : insert_slate_frame (create_offline_sequence env shot).2 shot
      offline_bg (extract_thumbnail env shot true) =
      { (create_offline_sequence env shot).2 with tracks :=
        [⟨[⟨offline_bg, 0, []⟩,
           ⟨env.matchSeg shot true, (env.matchSeg shot true).startTime, []⟩]⟩,
         ⟨[⟨extract_thumbnail env shot true, 1 - shot.head,
            [thumbnail_action_effect]⟩]⟩] } :=
    insert_slate_frame_shape _ shot offline_bg _
      ⟨env.matchSeg shot true, (env.matchSeg shot true).startTime, []⟩ rfl (hstart true)
  have hslateO := generate_slate_m_spec env
    ({ openAsSequence (env.matchSeg shot false) with tracks :=
      [⟨[⟨env.importClip (bgPathFor (resOf env shot)), 0, []⟩,
         ⟨env.matchSeg shot false, (env.matchSeg shot false).startTime, []⟩]⟩,
       ⟨[⟨extract_thumbnail env shot false, 1 - shot.head, [thumbnail_action_effect]⟩]⟩] })
    (online_slate_info env shot) shot.shotName.data (resOf env shot).data hresO hcodeO
  have hslateF := generate_slate_m_spec env
    ({ (create_offline_sequence env shot).2 with tracks :=
      [⟨[⟨offline_bg, 0, []⟩,
         ⟨env.matchSeg shot true, (env.matchSeg shot true).startTime, []⟩]⟩,
       ⟨[⟨extract_thumbnail env shot true, 1 - shot.head, [thumbnail_action_effect]⟩]⟩] })
    (offline_slate_info env shot) shot.shotName.data "1920x1080".data hresF hcodeF
  have hinfoO : dictSet (dictSet (dictSet info0 "<PROJECT>".data env.projectName.data)
      "<RESOLUTION>".data (resOf env shot).data)
      "<COLOR_SPACE>".data (env.matchSeg shot false).colourSpace.data =
      online_slate_info env shot := by
    unfold online_slate_info
    rw [hgetd]
  have hthumbO : ∀ r ∈ R,
      strEndsWith (extract_thumbnail env shot false).name r = false := by
    intro r hr
    show strEndsWith (env.matchSeg shot false).name r = false
    exact hmatch false r hr
  have hthumbF : ∀ r ∈ R,
      strEndsWith (extract_thumbnail env shot true).name r = false := by
    intro r hr
    show strEndsWith (env.matchSeg shot true).name r = false
    exact hmatch true r hr
  by_cases hcached : resOf env shot ∈ st.resolutions
  · have hlook : ((st.tempClips ++ [(create_offline_sequence env shot).1]).filter
        (fun c => strEndsWith c.name (resOf env shot))).get? 0 =
        some (env.importClip (bgPathFor (resOf env shot))) := by
      apply bg_lookup env R
      · exact hshotres
      · intro c hc r hr hce
        rcases List.mem_append.mp hc with h | h
        · exact hinv1 c h r hr hce
        · exfalso
          simp only [List.mem_singleton] at h
          rw [h, hmc] at hce
          rw [hmatch true r hr] at hce
          cases hce
      · exact List.mem_append_left _ (hinv2 _ hcached).2
      · exact himp _ hshotres
    refine ⟨{ tempClips := (st.tempClips ++ [(create_offline_sequence env shot).1]) ++
                  [extract_thumbnail env shot false, extract_thumbnail env shot true],
              resolutions := st.resolutions,
              shotNames := dictSet st.shotNames shot.name shot.shotName,
              onlineSeqs := st.onlineSeqs ++ [online_master_final env shot],
              offlineSeqs := st.offlineSeqs ++
                  [offline_master_final env offline_bg shot] },
      ?_, rfl, rfl, rfl, ?_, ?_⟩
    · rw [process_shot_eq]
      simp only [if_pos hcached]
      rw [hlook]
      show (get_slate_info env shot).bind _ = _
      rw [hinfo0]
      show (generate_slate_m env _ _).bind _ = _
      rw [hinfoO, honline1, hslateO]
      show (generate_slate_m env _ _).bind _ = _
      rw [show dictSet (dictSet (online_slate_info env shot) "<RESOLUTION>".data
          "1920x1080".data) "<COLOR_SPACE>".data "Rec.709".data =
          offline_slate_info env shot from rfl]
      rw [hoffline1, hslateF]
      rfl
    · show ∀ c ∈ (st.tempClips ++ [(create_offline_sequence env shot).1]) ++
          [extract_thumbnail env shot false, extract_thumbnail env shot true], _
      intro c hc r hr hce
      rcases List.mem_append.mp hc with h | h
      · rcases List.mem_append.mp h with h' | h'
        · exact hinv1 c h' r hr hce
        · exfalso
          simp only [List.mem_singleton] at h'
          rw [h', hmc, hmatch true r hr] at hce
          cases hce
      · exfalso
        simp only [List.mem_cons, List.not_mem_nil, or_false] at h
        rcases h with h' | h' <;> rw [h'] at hce
        · rw [hthumbO r hr] at hce
          cases hce
        · rw [hthumbF r hr] at hce
          cases hce
    · intro r hr
      refine ⟨(hinv2 r hr).1, ?_⟩
      exact List.mem_append_left _ (List.mem_append_left _ (hinv2 r hr).2)
  · refine ⟨{ tempClips := ((st.tempClips ++ [(create_offline_sequence env shot).1]) ++
                  [env.importClip (bgPathFor (resOf env shot))]) ++
                  [extract_thumbnail env shot false, extract_thumbnail env shot true],
              resolutions := st.resolutions ++ [resOf env shot],
              shotNames := dictSet st.shotNames shot.name shot.shotName,
              onlineSeqs := st.onlineSeqs ++ [online_master_final env shot],
              offlineSeqs := st.offlineSeqs ++
                  [offline_master_final env offline_bg shot] },
      ?_, rfl, rfl, rfl, ?_, ?_⟩
    · rw [process_shot_eq]
      simp only [if_neg hcached]
      show (get_slate_info env shot).bind _ = _
      rw [hinfo0]
      show (generate_slate_m env _ _).bind _ = _
      rw [hinfoO, honline1, hslateO]
      show (generate_slate_m env _ _).bind _ = _
      rw [show dictSet (dictSet (online_slate_info env shot) "<RESOLUTION>".data
          "1920x1080".data) "<COLOR_SPACE>".data "Rec.709".data =
          offline_slate_info env shot from rfl]
      rw [hoffline1, hslateF]
      rfl
    · show ∀ c ∈ ((st.tempClips ++ [(create_offline_sequence env shot).1]) ++
          [env.importClip (bgPathFor (resOf env shot))]) ++
          [extract_thumbnail env shot false, extract_thumbnail env shot true], _
      intro c hc r hr hce
      rcases List.mem_append.mp hc with h | h
      · rcases List.mem_append.mp h with h' | h'
        · rcases List.mem_append.mp h' with h'' | h''
          · exact hinv1 c h'' r hr hce
          · exfalso
            simp only [List.mem_singleton] at h''
            rw [h'', hmc, hmatch true r hr] at hce
            cases hce
        · simp only [List.mem_singleton] at h'
          by_cases hrr : r = resOf env shot
          · rw [h', hrr]
          · exfalso
            rw [h'] at hce
            rw [himp2 r hr (resOf env shot) hshotres hrr] at hce
            cases hce
      · exfalso
        simp only [List.mem_cons, List.not_mem_nil, or_false] at h
        rcases h with h' | h' <;> rw [h'] at hce
        · rw [hthumbO r hr] at hce
          cases hce
        · rw [hthumbF r hr] at hce
          cases hce
    · intro r hr
      rcases List.mem_append.mp hr with h | h
      · refine ⟨(hinv2 r h).1, ?_⟩
        exact List.mem_append_left _ (List.mem_append_left _
          (List.mem_append_left _ (hinv2 r h).2))
      · simp only [List.mem_singleton] at h
        rw [h]
        refine ⟨hshotres, ?_⟩
        exact List.mem_append_left _ (List.mem_append_right _ (List.mem_singleton.mpr rfl))

/-- Helper: the per-shot loop over a list of segments succeeds and produces
exactly one online and one offline slated master per segment, in order,
together with the accumulated shot-name assignments. -/
theorem process_fold_spec (env : BuildEnv) (offline_bg : ClipM) (R : List String)
    (shots : List SegmentInfo)
    (himp : ∀ r ∈ R, strEndsWith (env.importClip (bgPathFor r)).name r = true)
    (himp2 : ∀ r ∈ R, ∀ r' ∈ R, r ≠ r' →
      strEndsWith (env.importClip (bgPathFor r')).name r = false)
    (hmatch : ∀ shot ∈ shots, ∀ fx : Bool, ∀ r ∈ R,
      strEndsWith (env.matchSeg shot fx).name r = false)
    (hstart : ∀ shot ∈ shots, ∀ fx : Bool, 0 < (env.matchSeg shot fx).startTime)
    (hshotres : ∀ shot ∈ shots, resOf env shot ∈ R)
    (hname : ∀ shot ∈ shots, 2 ≤ (splitSep '_' shot.name.data).length) :
    ∀ st : BuildState,
    (∀ c ∈ st.tempClips, ∀ r ∈ R, strEndsWith c.name r = true →
      c = env.importClip (bgPathFor r)) →
    (∀ r ∈ st.resolutions, r ∈ R ∧
      env.importClip (bgPathFor r) ∈ st.tempClips) →
    ∃ st', shots.foldlM (process_shot env offline_bg) st = some st' ∧
      st'.onlineSeqs = st.onlineSeqs ++ shots.map (online_master_final env) ∧
      st'.offlineSeqs = st.offlineSeqs ++ shots.map (offline_master_final env offline_bg) ∧
      st'.shotNames =
        shots.foldl (fun m s => dictSet m s.name s.shotName) st.shotNames := by
  induction shots with
  | nil =>
    intro st _ _
    exact ⟨st, rfl, by simp, by simp, rfl⟩
  | cons shot tail ih =>
    intro st hinv1 hinv2
    obtain ⟨st1, h1, hon, hoff, hsn, hi1, hi2⟩ :=
      process_shot_spec env offline_bg R st shot himp himp2
        (hmatch shot (List.mem_cons_self shot tail))
        (hstart shot (List.mem_cons_self shot tail))
        (hshotres shot (List.mem_cons_self shot tail))
        (hname shot (List.mem_cons_self shot tail)) hinv1 hinv2
    obtain ⟨st', h2, hon', hoff', hsn'⟩ :=
      ih (fun s hs => hmatch s (List.mem_cons_of_mem _ hs))
        (fun s hs => hstart s (List.mem_cons_of_mem _ hs))
        (fun s hs => hshotres s (List.mem_cons_of_mem _ hs))
        (fun s hs => hname s (List.mem_cons_of_mem _ hs)) st1 hi1 hi2
    refine ⟨st', ?_, ?_, ?_, ?_⟩
    · show (process_shot env offline_bg st shot).bind _ = _
      rw [h1]
      show tail.foldlM (process_shot env offline_bg) st1 = some st'
      exact h2
    · rw [hon', hon, List.append_assoc]
      rfl
    · rw [hoff', hoff, List.append_assoc]
      rfl
    · rw [hsn', hsn]
      rfl

/-- Helper: the full driver under completion hypotheses — the project is
linked, a mezzanine path was chosen, every version name splits, every match
starts after record 0 and collides with no slate-background name, and the
two archive folders resolve.  The result is computed exactly. -/
theorem build_spec (env : BuildEnv) (sequence : SequenceInfo) (path : String)
    (libraries : List LibraryInfo) (R : List String) (onF offF : FolderRef)
    (himp : ∀ r ∈ R, strEndsWith (env.importClip (bgPathFor r)).name r = true)
    (himp2 : ∀ r ∈ R, ∀ r' ∈ R, r ≠ r' →
      strEndsWith (env.importClip (bgPathFor r')).name r = false)
    (h1920 : "1920x1080" ∈ R)
    (hmatch : ∀ shot ∈ collect_sequence_segments sequence, ∀ fx : Bool, ∀ r ∈ R,
      strEndsWith (env.matchSeg shot fx).name r = false)
    (hstart : ∀ shot ∈ collect_sequence_segments sequence, ∀ fx : Bool,
      0 < (env.matchSeg shot fx).startTime)
    (hshotres : ∀ shot ∈ collect_sequence_segments sequence, resOf env shot ∈ R)
    (hname : ∀ shot ∈ collect_sequence_segments sequence,
      2 ≤ (splitSep '_' shot.name.data).length)
    (hpath : path ≠ "")
    (hON : dictGet (get_sequences_folders libraries) "online" = some onF)
    (hOFF : dictGet (get_sequences_folders libraries) "offline" = some offF) :
    build_shot_masters_from_sequence env true sequence path libraries =
    some { onlineReelName :=
             String.mk (pyReplace sequence.name.data "comp_submissions".data "mti".data),
           offlineReelName := sequence.name,
           onlineSeqs :=
             (collect_sequence_segments sequence).map (online_master_final env),
           offlineSeqs := (collect_sequence_segments sequence).map
             (offline_master_final env (env.importClip (bgPathFor "1920x1080"))),
           shotNames := (collect_sequence_segments sequence).foldl
             (fun m s => dictSet m s.name s.shotName) [],
           events :=
             [BuildEvent.exportRender "Deliverable Mezzanines.xml"
                (String.mk (pyReplace sequence.name.data "comp_submissions".data
                  "mti".data)) path,
              BuildEvent.exportRender "Deliverable Mezzanines.xml" sequence.name path,
              BuildEvent.moveItems
                (((collect_sequence_segments sequence).map
                  (online_master_final env)).map (fun s => s.name))
                (PanelDest.intoFolder onF),
              BuildEvent.importClips
                (pathJoin path (String.mk (pyReplace sequence.name.data
                  "comp_submissions".data "mti".data)))
                (PanelDest.intoReel (String.mk (pyReplace sequence.name.data
                  "comp_submissions".data "mti".data))),
              BuildEvent.moveItems
                (((collect_sequence_segments sequence).map
                  (offline_master_final env (env.importClip (bgPathFor "1920x1080")))).map
                  (fun s => s.name))
                (PanelDest.intoFolder offF),
              BuildEvent.importClips (pathJoin path sequence.name)
                (PanelDest.intoReel sequence.name),
              BuildEvent.setShotNames ((collect_sequence_segments sequence).foldl
                (fun m s => dictSet m s.name s.shotName) [])] } := by
  have hinv1 : ∀ c ∈ [env.importClip (bgPathFor "1920x1080")], ∀ r ∈ R,
      strEndsWith c.name r = true → c = env.importClip (bgPathFor r) := by
    intro c hc r hr hce
    simp only [List.mem_singleton] at hc
    by_cases hrr : r = "1920x1080"
    · rw [hc, hrr]
    · exfalso
      rw [hc] at hce
      rw [himp2 r hr "1920x1080" h1920 hrr] at hce
      cases hce
  have hinv2 : ∀ r ∈ ([] : List String), r ∈ R ∧
      env.importClip (bgPathFor r) ∈ [env.importClip (bgPathFor "1920x1080")] := by
    intro r hr
    cases hr
  obtain ⟨stN, hfold, hon, hoff, hsn⟩ :=
    process_fold_spec env (env.importClip (bgPathFor "1920x1080")) R
      (collect_sequence_segments sequence) himp himp2 hmatch hstart hshotres hname
      { tempClips := [env.importClip (bgPathFor "1920x1080")], resolutions := [],
        shotNames := [], onlineSeqs := [], offlineSeqs := [] } hinv1 hinv2
  simp only [List.nil_append] at hon hoff
  show ((collect_sequence_segments sequence).foldlM
      (process_shot env (env.importClip (bgPathFor "1920x1080")))
      { tempClips := [env.importClip (bgPathFor "1920x1080")], resolutions := [],
        shotNames := [], onlineSeqs := [], offlineSeqs := [] }).bind _ = _
  rw [hfold]
  show (if path = "" then _ else _) = _
  rw [if_neg hpath]
  show (dictGet (get_sequences_folders libraries) "online").bind _ = _
  rw [hON]
  show (dictGet (get_sequences_folders libraries) "offline").bind _ = _
  rw [hOFF]
  show some _ = _
  rw [hon, hoff, hsn]
  rfl

/-- **C3.** Every master sequence the build produces (online and offline of
every shot) has the slate burned in as its first frame: track 1 starts with
the slate background imported for that master's resolution (the shot's
online resolution, 1920x1080 for the offline master) at record time 0,
before the matched content (which starts strictly later, behind its head
handles), and that slate segment carries the `Text` effect filled from the
template for that resolution and the shot's production-tracking metadata
(`slate_text_effect` applied to `online_slate_info` / `offline_slate_info`);
the one-frame thumbnail extracted from the matched segment sits alone on a
newly created track 2 with its `Action` effect. -/
theorem shot_masters_slate_first_frame (env : BuildEnv) (sequence : SequenceInfo)
    (path : String) (libraries : List LibraryInfo) (R : List String)
    (onF offF : FolderRef)
    (himp : ∀ r ∈ R, strEndsWith (env.importClip (bgPathFor r)).name r = true)
    (himp2 : ∀ r ∈ R, ∀ r' ∈ R, r ≠ r' →
      strEndsWith (env.importClip (bgPathFor r')).name r = false)
    (h1920 : "1920x1080" ∈ R)
    (hmatch : ∀ shot ∈ collect_sequence_segments sequence, ∀ fx : Bool, ∀ r ∈ R,
      strEndsWith (env.matchSeg shot fx).name r = false)
    (hstart : ∀ shot ∈ collect_sequence_segments sequence, ∀ fx : Bool,
      0 < (env.matchSeg shot fx).startTime)
    (hshotres : ∀ shot ∈ collect_sequence_segments sequence, resOf env shot ∈ R)
    (hname : ∀ shot ∈ collect_sequence_segments sequence,
      2 ≤ (splitSep '_' shot.name.data).length)
    (hpath : path ≠ "")
    (hON : dictGet (get_sequences_folders libraries) "online" = some onF)
    (hOFF : dictGet (get_sequences_folders libraries) "offline" = some offF) :
    ∃ res, build_shot_masters_from_sequence env true sequence path libraries =
      some res ∧
    (∀ m ∈ res.onlineSeqs, ∃ shot ∈ collect_sequence_segments sequence,
      m.tracks =
        [⟨[⟨env.importClip (bgPathFor (resOf env shot)), 0,
            [slate_text_effect env shot (online_slate_info env shot)
              (resOf env shot)]⟩,
           ⟨env.matchSeg shot false, (env.matchSeg shot false).startTime, []⟩]⟩,
         ⟨[⟨extract_thumbnail env shot false, 1 - shot.head,
            [thumbnail_action_effect]⟩]⟩] ∧
      0 < (env.matchSeg shot false).startTime) ∧
    (∀ m ∈ res.offlineSeqs, ∃ shot ∈ collect_sequence_segments sequence,
      m.tracks =
        [⟨[⟨env.importClip (bgPathFor "1920x1080"), 0,
            [slate_text_effect env shot (offline_slate_info env shot)
              "1920x1080"]⟩,
           ⟨env.matchSeg shot true, (env.matchSeg shot true).startTime, []⟩]⟩,
         ⟨[⟨extract_thumbnail env shot true, 1 - shot.head,
            [thumbnail_action_effect]⟩]⟩] ∧
      0 < (env.matchSeg shot true).startTime) := by
  refine ⟨_, build_spec env sequence path libraries R onF offF himp himp2 h1920
    hmatch hstart hshotres hname hpath hON hOFF, ?_, ?_⟩
  · intro m hm
    obtain ⟨shot, hshot, hm'⟩ := List.mem_map.mp hm
    refine ⟨shot, hshot, ?_, hstart shot hshot false⟩
    rw [← hm']
    rfl
  · intro m hm
    obtain ⟨shot, hshot, hm'⟩ := List.mem_map.mp hm
    refine ⟨shot, hshot, ?_, hstart shot hshot true⟩
    rw [← hm']
    rfl

/-- **C3 witness.** The slate-first-frame property, with the slate
background, thumbnail, content and filled `Text` effect pinned, at the
concrete fixtures. -/
theorem shot_masters_slate_first_frame_witness :
    ∃ res, build_shot_masters_from_sequence fixBuildEnv true fixSequence
      "/data/out" [] = some res ∧
    (∀ m ∈ res.onlineSeqs, ∃ shot ∈ collect_sequence_segments fixSequence,
      m.tracks =
        [⟨[⟨fixBuildEnv.importClip (bgPathFor (resOf fixBuildEnv shot)), 0,
            [slate_text_effect fixBuildEnv shot (online_slate_info fixBuildEnv shot)
              (resOf fixBuildEnv shot)]⟩,
           ⟨fixBuildEnv.matchSeg shot false,
            (fixBuildEnv.matchSeg shot false).startTime, []⟩]⟩,
         ⟨[⟨extract_thumbnail fixBuildEnv shot false, 1 - shot.head,
            [thumbnail_action_effect]⟩]⟩] ∧
      0 < (fixBuildEnv.matchSeg shot false).startTime) ∧
    (∀ m ∈ res.offlineSeqs, ∃ shot ∈ collect_sequence_segments fixSequence,
      m.tracks =
        [⟨[⟨fixBuildEnv.importClip (bgPathFor "1920x1080"), 0,
            [slate_text_effect fixBuildEnv shot (offline_slate_info fixBuildEnv shot)
              "1920x1080"]⟩,
           ⟨fixBuildEnv.matchSeg shot true,
            (fixBuildEnv.matchSeg shot true).startTime, []⟩]⟩,
         ⟨[⟨extract_thumbnail fixBuildEnv shot true, 1 - shot.head,
            [thumbnail_action_effect]⟩]⟩] ∧
      0 < (fixBuildEnv.matchSeg shot true).startTime) :=
  shot_masters_slate_first_frame fixBuildEnv fixSequence "/data/out" []
    ["1920x1080", "3840x2160"] ⟨"Shot Sequences", "online"⟩
    ⟨"Shot Sequences", "offline"⟩ (by decide) (by decide) (by decide) (by decide)
    (by decide) (by decide) (by decide) (by decide) (by decide) (by decide)

/-- **C4.** For every video segment of the selected sequence — exactly the
segments `collect_sequence_segments` keeps, all of type `'Video Segment'` —
the build produces exactly two master sequences, in segment order: an online
master matched at the source resolution, and an offline master at 1920x1080,
16-bit, progressive (`"P"`), 23.976 fps containing the matched clip. -/
theorem two_masters_per_video_segment (env : BuildEnv) (sequence : SequenceInfo)
    (path : String) (libraries : List LibraryInfo) (R : List String)
    (onF offF : FolderRef)
    (himp : ∀ r ∈ R, strEndsWith (env.importClip (bgPathFor r)).name r = true)
    (himp2 : ∀ r ∈ R, ∀ r' ∈ R, r ≠ r' →
      strEndsWith (env.importClip (bgPathFor r')).name r = false)
    (h1920 : "1920x1080" ∈ R)
    (hmatch : ∀ shot ∈ collect_sequence_segments sequence, ∀ fx : Bool, ∀ r ∈ R,
      strEndsWith (env.matchSeg shot fx).name r = false)
    (hstart : ∀ shot ∈ collect_sequence_segments sequence, ∀ fx : Bool,
      0 < (env.matchSeg shot fx).startTime)
    (hshotres : ∀ shot ∈ collect_sequence_segments sequence, resOf env shot ∈ R)
    (hname : ∀ shot ∈ collect_sequence_segments sequence,
      2 ≤ (splitSep '_' shot.name.data).length)
    (hpath : path ≠ "")
    (hON : dictGet (get_sequences_folders libraries) "online" = some onF)
    (hOFF : dictGet (get_sequences_folders libraries) "offline" = some offF)
    (hres : ∀ shot ∈ collect_sequence_segments sequence,
      (env.matchSeg shot false).width = shot.sourceWidth ∧
      (env.matchSeg shot false).height = shot.sourceHeight) :
    ∃ res, build_shot_masters_from_sequence env true sequence path libraries =
      some res ∧
    (∀ s ∈ collect_sequence_segments sequence, s.segType = "Video Segment") ∧
    res.onlineSeqs.length = (collect_sequence_segments sequence).length ∧
    res.offlineSeqs.length = (collect_sequence_segments sequence).length ∧
    ∀ i shot, (collect_sequence_segments sequence).get? i = some shot →
      ∃ om fm, res.onlineSeqs.get? i = some om ∧ res.offlineSeqs.get? i = some fm ∧
        om.width = shot.sourceWidth ∧ om.height = shot.sourceHeight ∧
        fm.width = 1920 ∧ fm.height = 1080 ∧ fm.bitDepth = 16 ∧
        fm.scanMode = "P" ∧ fm.frameRate = "23.976 fps" ∧
        ∃ tr ∈ fm.tracks, ∃ sg ∈ tr.segs, sg.clip = env.matchSeg shot true := by
  refine ⟨_, build_spec env sequence path libraries R onF offF himp himp2 h1920
    hmatch hstart hshotres hname hpath hON hOFF, ?_, ?_, ?_, ?_⟩
  · intro s hs
    have := (List.mem_filter.mp hs).2
    simpa using this
  · exact List.length_map _ _
  · exact List.length_map _ _
  · intro i shot hi
    have hmem : shot ∈ collect_sequence_segments sequence := List.get?_mem hi
    have hgO : (List.map (online_master_final env)
        (collect_sequence_segments sequence)).get? i =
        some (online_master_final env shot) := by
      rw [List.get?_eq_getElem?, List.getElem?_map, ← List.get?_eq_getElem?, hi]
      rfl
    have hgF : (List.map
        (offline_master_final env (env.importClip (bgPathFor "1920x1080")))
        (collect_sequence_segments sequence)).get? i =
        some (offline_master_final env (env.importClip (bgPathFor "1920x1080")) shot) := by
      rw [List.get?_eq_getElem?, List.getElem?_map, ← List.get?_eq_getElem?, hi]
      rfl
    refine ⟨online_master_final env shot,
      offline_master_final env (env.importClip (bgPathFor "1920x1080")) shot,
      hgO, hgF, ?_, ?_, rfl, rfl, rfl, rfl, rfl, ?_⟩
    · exact (hres shot hmem).1
    · exact (hres shot hmem).2
    · exact ⟨_, List.mem_cons_self _ _, _,
        List.mem_cons_of_mem _ (List.mem_cons_self _ _), rfl⟩

/-- **C4 witness.** The two-masters-per-video-segment property at the
concrete fixtures. -/
theorem two_masters_per_video_segment_witness :
    ∃ res, build_shot_masters_from_sequence fixBuildEnv true fixSequence
      "/data/out" [] = some res ∧
    (∀ s ∈ collect_sequence_segments fixSequence, s.segType = "Video Segment") ∧
    res.onlineSeqs.length = (collect_sequence_segments fixSequence).length ∧
    res.offlineSeqs.length = (collect_sequence_segments fixSequence).length ∧
    ∀ i shot, (collect_sequence_segments fixSequence).get? i = some shot →
      ∃ om fm, res.onlineSeqs.get? i = some om ∧ res.offlineSeqs.get? i = some fm ∧
        om.width = shot.sourceWidth ∧ om.height = shot.sourceHeight ∧
        fm.width = 1920 ∧ fm.height = 1080 ∧ fm.bitDepth = 16 ∧
        fm.scanMode = "P" ∧ fm.frameRate = "23.976 fps" ∧
        ∃ tr ∈ fm.tracks, ∃ sg ∈ tr.segs, sg.clip = fixBuildEnv.matchSeg shot true :=
  two_masters_per_video_segment fixBuildEnv fixSequence "/data/out" []
    ["1920x1080", "3840x2160"] ⟨"Shot Sequences", "online"⟩
    ⟨"Shot Sequences", "offline"⟩ (by decide) (by decide) (by decide) (by decide)
    (by decide) (by decide) (by decide) (by decide) (by decide) (by decide)
    (by decide)

/-- **C6 counterexample.** In a concrete build run the scheduled
`import_clips` events place the rendered mezzanines into the online and
offline *reels*, not into any library folder: filtering the event list for
imports whose destination is a folder yields nothing, and the two import
events present target the reels. -/
theorem mezzanine_import_counterexample :
    (build_shot_masters_from_sequence fixBuildEnv true fixSequence
      "/data/out" []).map (fun r =>
        (r.events.filter (fun e => match e with
          | BuildEvent.importClips _ (PanelDest.intoFolder _) => true
          | _ => false),
         r.events.filter (fun e => match e with
          | BuildEvent.importClips _ _ => true
          | _ => false))) =
    some ([],
      [BuildEvent.importClips (pathJoin "/data/out" "ep1_mti")
         (PanelDest.intoReel "ep1_mti"),
       BuildEvent.importClips (pathJoin "/data/out" "ep1_comp_submissions")
         (PanelDest.intoReel "ep1_comp_submissions")]) := by
  decide

/-- **C6 (amended).** After rendering the mezzanines of the online and
offline reels, the scheduled events import the rendered mezzanine files back
into the online and offline *reels*, while it is the built *master
sequences* that are moved into the `'online'` and `'offline'` folders of the
`'Shot Sequences'` library (with those folders defaulting to a fresh
`'Shot Sequences'` library when no existing library matches). -/
theorem mezzanine_reimport_destination (env : BuildEnv) (sequence : SequenceInfo)
    (path : String) (libraries : List LibraryInfo) (R : List String)
    (onF offF : FolderRef)
    (himp : ∀ r ∈ R, strEndsWith (env.importClip (bgPathFor r)).name r = true)
    (himp2 : ∀ r ∈ R, ∀ r' ∈ R, r ≠ r' →
      strEndsWith (env.importClip (bgPathFor r')).name r = false)
    (h1920 : "1920x1080" ∈ R)
    (hmatch : ∀ shot ∈ collect_sequence_segments sequence, ∀ fx : Bool, ∀ r ∈ R,
      strEndsWith (env.matchSeg shot fx).name r = false)
    (hstart : ∀ shot ∈ collect_sequence_segments sequence, ∀ fx : Bool,
      0 < (env.matchSeg shot fx).startTime)
    (hshotres : ∀ shot ∈ collect_sequence_segments sequence, resOf env shot ∈ R)
    (hname : ∀ shot ∈ collect_sequence_segments sequence,
      2 ≤ (splitSep '_' shot.name.data).length)
    (hpath : path ≠ "")
    (hON : dictGet (get_sequences_folders libraries) "online" = some onF)
    (hOFF : dictGet (get_sequences_folders libraries) "offline" = some offF) :
    ∃ res, build_shot_masters_from_sequence env true sequence path libraries =
      some res ∧
    res.events =
      [BuildEvent.exportRender "Deliverable Mezzanines.xml" res.onlineReelName path,
       BuildEvent.exportRender "Deliverable Mezzanines.xml" res.offlineReelName path,
       BuildEvent.moveItems (res.onlineSeqs.map (fun s => s.name))
         (PanelDest.intoFolder onF),
       BuildEvent.importClips (pathJoin path res.onlineReelName)
         (PanelDest.intoReel res.onlineReelName),
       BuildEvent.moveItems (res.offlineSeqs.map (fun s => s.name))
         (PanelDest.intoFolder offF),
       BuildEvent.importClips (pathJoin path res.offlineReelName)
         (PanelDest.intoReel res.offlineReelName),
       BuildEvent.setShotNames res.shotNames] ∧
    (libraries.find? (fun l => containsSub "Shot Sequences".data l.name.data) = none →
      onF = ⟨"Shot Sequences", "online"⟩ ∧ offF = ⟨"Shot Sequences", "offline"⟩) := by
  refine ⟨_, build_spec env sequence path libraries R onF offF himp himp2 h1920
    hmatch hstart hshotres hname hpath hON hOFF, rfl, ?_⟩
  intro hnone
  have hseq : get_sequences_folders libraries =
      [("online", FolderRef.mk "Shot Sequences" "online"),
       ("offline", FolderRef.mk "Shot Sequences" "offline")] := by
    unfold get_sequences_folders
    rw [hnone]
  rw [hseq] at hON hOFF
  have h1 : dictGet [("online", FolderRef.mk "Shot Sequences" "online"),
      ("offline", FolderRef.mk "Shot Sequences" "offline")] "online" =
      some (FolderRef.mk "Shot Sequences" "online") := by decide
  have h2 : dictGet [("online", FolderRef.mk "Shot Sequences" "online"),
      ("offline", FolderRef.mk "Shot Sequences" "offline")] "offline" =
      some (FolderRef.mk "Shot Sequences" "offline") := by decide
  rw [h1] at hON
  rw [h2] at hOFF
  exact ⟨(Option.some.inj hON).symm, (Option.some.inj hOFF).symm⟩

/-- **C6 (amended) witness.** The event-destination facts at the concrete
fixtures, with no pre-existing `'Shot Sequences'` library. -/
theorem mezzanine_reimport_destination_witness :
    ∃ res, build_shot_masters_from_sequence fixBuildEnv true fixSequence
      "/data/out" [] = some res ∧
    res.events =
      [BuildEvent.exportRender "Deliverable Mezzanines.xml" res.onlineReelName
         "/data/out",
       BuildEvent.exportRender "Deliverable Mezzanines.xml" res.offlineReelName
         "/data/out",
       BuildEvent.moveItems (res.onlineSeqs.map (fun s => s.name))
         (PanelDest.intoFolder ⟨"Shot Sequences", "online"⟩),
       BuildEvent.importClips (pathJoin "/data/out" res.onlineReelName)
         (PanelDest.intoReel res.onlineReelName),
       BuildEvent.moveItems (res.offlineSeqs.map (fun s => s.name))
         (PanelDest.intoFolder ⟨"Shot Sequences", "offline"⟩),
       BuildEvent.importClips (pathJoin "/data/out" res.offlineReelName)
         (PanelDest.intoReel res.offlineReelName),
       BuildEvent.setShotNames res.shotNames] ∧
    (([] : List LibraryInfo).find?
        (fun l => containsSub "Shot Sequences".data l.name.data) = none →
      (⟨"Shot Sequences", "online"⟩ : FolderRef) = ⟨"Shot Sequences", "online"⟩ ∧
      (⟨"Shot Sequences", "offline"⟩ : FolderRef) = ⟨"Shot Sequences", "offline"⟩) :=
  mezzanine_reimport_destination fixBuildEnv fixSequence "/data/out" []
    ["1920x1080", "3840x2160"] ⟨"Shot Sequences", "online"⟩
    ⟨"Shot Sequences", "offline"⟩ (by decide) (by decide) (by decide) (by decide)
    (by decide) (by decide) (by decide) (by decide) (by decide) (by decide)
